import Mathlib

/-!
# cairosdl pixel premultiplier / unpremultiplier

A shallow embedding of `src/cairosdl-premultiply.c` and of the rectangle
functions of `src/cairosdl.c` that call it.

* A pixel is a 32 bit `unsigned`, modelled as a `Nat` below `2 ^ 32`; every
  operation that can leave 32 bits is reduced modulo `2 ^ 32`.
* `CAIROSDL_ASHIFT` comes from `cairosdl.h`, which is not part of the sources at
  hand, so the alpha shift `ASHIFT` is a parameter of every definition.  The
  four byte positions `0, 8, 16, 24` are the meaningful values; cairo uses `24`.
* Memory is one flat array of 32 bit words, `Mem`.  An `unsigned *` is a word
  index into it, so that source and destination may overlap or coincide.  The
  blit functions take byte addresses and byte strides, as in C, with byte
  address `4 * k` for word `k`; addresses are natural numbers and do not wrap.
* An access outside the array, or the use of a byte address that is not a
  multiple of 4 as an `unsigned *`, is undefined behaviour in C and ends the
  run with `Outcome.fault`.
-/

namespace CairoSDL

/-! ## Pixel format configuration -/

/-- Macro `RSHIFT`, defined as `((24 + ASHIFT) % 32)`. -/
def RSHIFT (ASHIFT : Nat) : Nat := (24 + ASHIFT) % 32

/-- Macro `GSHIFT`, defined as `((16 + ASHIFT) % 32)`. -/
def GSHIFT (ASHIFT : Nat) : Nat := (16 + ASHIFT) % 32

/-- Macro `BSHIFT`, defined as `(( 8 + ASHIFT) % 32)`. -/
def BSHIFT (ASHIFT : Nat) : Nat := (8 + ASHIFT) % 32

/-- Macro `AMASK`, defined as `(255U << ASHIFT)`. -/
def AMASK (ASHIFT : Nat) : Nat := (255 <<< ASHIFT) % 2 ^ 32

/-- Macro `RMASK`, defined as `(255U << RSHIFT)`. -/
def RMASK (ASHIFT : Nat) : Nat := (255 <<< RSHIFT ASHIFT) % 2 ^ 32

/-- Macro `GMASK`, defined as `(255U << GSHIFT)`. -/
def GMASK (ASHIFT : Nat) : Nat := (255 <<< GSHIFT ASHIFT) % 2 ^ 32

/-- Macro `BMASK`, defined as `(255U << BSHIFT)`. -/
def BMASK (ASHIFT : Nat) : Nat := (255 <<< BSHIFT ASHIFT) % 2 ^ 32

/-- Macro `DO_CLAMP_INPUT`, defined as `0`: the input is not clamped. -/
def DO_CLAMP_INPUT : Bool := false

/-- Macro `SHIFT(x, y)`, defined as `((y) < 0 ? (x) >> (-(y)) : (x) << (y))`, on a
32 bit unsigned `x`: a left shift drops the bits that leave the word. -/
def SHIFT (x : Nat) (y : Int) : Nat :=
  if y < 0 then x >>> (-y).toNat else (x <<< y.toNat) % 2 ^ 32

/-- Macro `ceil_div(a,b)`, defined as `((a) + (b)-1) / (b)`. -/
def ceil_div (a b : Nat) : Nat := (a + b - 1) / b

/-- Macro `RECIPROCAL_BITS`, defined as `16`. -/
def RECIPROCAL_BITS : Nat := 16

/-- Macro `R(i)`, defined as `((i) ? ceil_div(255*(1<<RECIPROCAL_BITS), (i)) : 0)`. -/
def R (i : Nat) : Nat :=
  if i ≠ 0 then ceil_div (255 * (1 <<< RECIPROCAL_BITS)) i else 0

/-- Table `static unsigned const reciprocal_table[256]`: the entries
`R(0) .. R(255)` that the macros `R1`, `R2`, `R3` enumerate. -/
def reciprocal_table : List Nat := (List.range 256).map R

/-! ## The per-pixel transforms (the probe blocks of the two row functions) -/

/-- The block `rgba = src[i]; ... dst[i] = (r & RMASK) | ...` of
`unpremultiply_row`, as a function of the pixel read. -/
def unpremultiply_pixel (ASHIFT rgba : Nat) : Nat :=
  let a := (rgba >>> ASHIFT) &&& 255
  let r := (rgba >>> RSHIFT ASHIFT) &&& 255
  let g := (rgba >>> GSHIFT ASHIFT) &&& 255
  let b := (rgba >>> BSHIFT ASHIFT) &&& 255
  let recip := reciprocal_table.getD a 0
  let r := if DO_CLAMP_INPUT then (if r < a then r else a) else r
  let g := if DO_CLAMP_INPUT then (if g < a then g else a) else g
  let b := if DO_CLAMP_INPUT then (if b < a then b else a) else b
  let r := SHIFT (r * recip % 2 ^ 32) ((RSHIFT ASHIFT : Int) - RECIPROCAL_BITS)
  let g := SHIFT (g * recip % 2 ^ 32) ((GSHIFT ASHIFT : Int) - RECIPROCAL_BITS)
  let b := SHIFT (b * recip % 2 ^ 32) ((BSHIFT ASHIFT : Int) - RECIPROCAL_BITS)
  (r &&& RMASK ASHIFT) ||| (g &&& GMASK ASHIFT) ||| (b &&& BMASK ASHIFT)
    ||| (rgba &&& AMASK ASHIFT)

/-- The block `rgba = src[i]; ... dst[i] = (r & RMASK) | ...` of
`premultiply_row`, as a function of the pixel read. -/
def premultiply_pixel (ASHIFT rgba : Nat) : Nat :=
  let a := (rgba >>> ASHIFT) &&& 255
  let r := (rgba >>> RSHIFT ASHIFT) &&& 255
  let g := (rgba >>> GSHIFT ASHIFT) &&& 255
  let b := (rgba >>> BSHIFT ASHIFT) &&& 255
  let r := SHIFT ((r * a * 257 + 32768) % 2 ^ 32) ((RSHIFT ASHIFT : Int) - 16)
  let g := SHIFT ((g * a * 257 + 32768) % 2 ^ 32) ((GSHIFT ASHIFT : Int) - 16)
  let b := SHIFT ((b * a * 257 + 32768) % 2 ^ 32) ((BSHIFT ASHIFT : Int) - 16)
  (r &&& RMASK ASHIFT) ||| (g &&& GMASK ASHIFT) ||| (b &&& BMASK ASHIFT)
    ||| (rgba &&& AMASK ASHIFT)

/-- The 8 bit channel of `rgba` that sits at bit offset `shift`. -/
def channel (shift rgba : Nat) : Nat := (rgba >>> shift) &&& 255

/-! ## Memory and the row transforms -/

/-- Flat memory of 32 bit words. -/
abbrev Mem := List Nat

/-- Every word of the memory is a 32 bit value. -/
def Mem.wf (m : Mem) : Prop := ∀ w ∈ m, w < 2 ^ 32

/-- How a run of one of the C functions ends. -/
inductive Outcome where
  /-- the function returned, leaving this memory -/
  | done (m : Mem)
  /-- an access outside the memory (undefined behaviour); the memory so far -/
  | fault (m : Mem)
  /-- the iteration budget of the model ran out; the memory so far -/
  | timeout (m : Mem)
  deriving DecidableEq, Repr

/-- The memory a run leaves behind. -/
def Outcome.mem : Outcome → Mem
  | .done m => m
  | .fault m => m
  | .timeout m => m

/-- Where control is inside the outer `while (i < num_pixels)` loop. -/
inductive Mode where
  /-- at the head of the outer loop, about to probe a pair of pixels -/
  | probe
  /-- inside `while (AMASK == ((in = src[i]) & AMASK))` -/
  | solid
  /-- inside `while (src[i] == const_in)` -/
  | const (const_in const_out : Nat)
  deriving DecidableEq, Repr

/-- The control flow shared by `unpremultiply_row` and `premultiply_row`, which
differ only in the arithmetic `px` of their probe blocks.  `dst` and `src` are
word indices into the one memory `m`, so the two rows may overlap; `i` is the
C variable of the same name. -/
def row_loop (px : Nat → Nat) (ASHIFT dst src num_pixels : Nat) :
    Nat → Mode → Nat → Mem → Outcome
  | 0, _, _, m => .timeout m
  | fuel + 1, .probe, i, m =>
    if i < num_pixels then
      match m[src + i]? with
      | none => .fault m
      | some rgba0 =>
        if dst + i < m.length then
          let const_in := rgba0
          let const_out := px rgba0
          let m1 := m.set (dst + i) const_out
          if i + 1 = num_pixels then .done m1
          else
            match m1[src + (i + 1)]? with
            | none => .fault m1
            | some rgba1 =>
              if dst + (i + 1) < m1.length then
                let m2 := m1.set (dst + (i + 1)) (px rgba1)
                let accu := (2 ^ 32 - 2 * 255 + ((rgba0 >>> ASHIFT) &&& 255)) % 2 ^ 32
                let accu := (accu + ((rgba1 >>> ASHIFT) &&& 255)) % 2 ^ 32
                let diff := rgba1 ^^^ const_in
                if 0 ≠ (accu &&& diff) then
                  row_loop px ASHIFT dst src num_pixels fuel .probe (i + 2) m2
                else if 0 = accu then
                  row_loop px ASHIFT dst src num_pixels fuel .solid (i + 2) m2
                else if 0 = diff then
                  row_loop px ASHIFT dst src num_pixels fuel
                    (.const const_in const_out) (i + 2) m2
                else
                  row_loop px ASHIFT dst src num_pixels fuel .probe (i + 2) m2
              else .fault m1
        else .fault m
    else .done m
  | fuel + 1, .solid, i, m =>
    match m[src + i]? with
    | none => .fault m
    | some inp =>
      if AMASK ASHIFT = (inp &&& AMASK ASHIFT) then
        if dst + i < m.length then
          let m1 := m.set (dst + i) inp
          if i + 1 = num_pixels then .done m1
          else row_loop px ASHIFT dst src num_pixels fuel .solid (i + 1) m1
        else .fault m
      else row_loop px ASHIFT dst src num_pixels fuel .probe i m
  | fuel + 1, .const const_in const_out, i, m =>
    match m[src + i]? with
    | none => .fault m
    | some inp =>
      if inp = const_in then
        if dst + i < m.length then
          let m1 := m.set (dst + i) const_out
          if i + 1 = num_pixels then .done m1
          else
            row_loop px ASHIFT dst src num_pixels fuel
              (.const const_in const_out) (i + 1) m1
        else .fault m
      else row_loop px ASHIFT dst src num_pixels fuel .probe i m

/-- Iterations that always suffice: `i` only advances while `src[i]` lies in
the memory, and each value of `i` is visited at most twice. -/
def row_fuel (m : Mem) : Nat := 2 * m.length + 3

/-- Function `static void unpremultiply_row(unsigned *dst, unsigned const *src,
size_t num_pixels)`. -/
def unpremultiply_row (ASHIFT : Nat) (m : Mem) (dst src num_pixels : Nat) : Outcome :=
  row_loop (unpremultiply_pixel ASHIFT) ASHIFT dst src num_pixels (row_fuel m) .probe 0 m

/-- Function `static void premultiply_row(unsigned *dst, unsigned const *src,
size_t num_pixels)`. -/
def premultiply_row (ASHIFT : Nat) (m : Mem) (dst src num_pixels : Nat) : Outcome :=
  row_loop (premultiply_pixel ASHIFT) ASHIFT dst src num_pixels (row_fuel m) .probe 0 m

/-! ## The rectangular blit drivers -/

/-- The loop `while (height-- > 0) { row ((unsigned *)target_bytes,
(unsigned const *)source_bytes, width); target_bytes += target_stride;
source_bytes += source_stride; }` of both blit functions, for `height` rows
still to do. -/
def blit_rows (row : Mem → Nat → Nat → Nat → Outcome)
    (target_stride source_stride width : Nat) : Nat → Nat → Nat → Mem → Outcome
  | 0, _, _, m => .done m
  | height + 1, target_bytes, source_bytes, m =>
    if target_bytes % 4 = 0 ∧ source_bytes % 4 = 0 then
      match row m (target_bytes / 4) (source_bytes / 4) width with
      | .done m1 =>
        blit_rows row target_stride source_stride width height
          (target_bytes + target_stride) (source_bytes + source_stride) m1
      | .fault m1 => .fault m1
      | .timeout m1 => .timeout m1
    else .fault m

/-- Function `void _cairosdl_blit_and_unpremultiply (void *target_buffer,
size_t target_stride, void const *source_buffer, size_t source_stride,
int width, int height)`. -/
def _cairosdl_blit_and_unpremultiply (ASHIFT : Nat) (m : Mem)
    (target_buffer target_stride source_buffer source_stride : Nat)
    (width height : Int) : Outcome :=
  if width ≤ 0 then .done m
  else
    blit_rows (unpremultiply_row ASHIFT) target_stride source_stride width.toNat
      height.toNat target_buffer source_buffer m

/-- Function `void _cairosdl_blit_and_premultiply (void *target_buffer,
size_t target_stride, void const *source_buffer, size_t source_stride,
int width, int height)`. -/
def _cairosdl_blit_and_premultiply (ASHIFT : Nat) (m : Mem)
    (target_buffer target_stride source_buffer source_stride : Nat)
    (width height : Int) : Outcome :=
  if width ≤ 0 then .done m
  else
    blit_rows (premultiply_row ASHIFT) target_stride source_stride width.toNat
      height.toNat target_buffer source_buffer m

/-! ## Auxiliary definitions used by the proofs -/

/-- The expression `(r & RMASK) | (g & GMASK) | (b & BMASK) | (rgba & AMASK)`
that ends both probe blocks, with `r, g, b` obtained by `SHIFT` from the 16.16
fixed point products `vr, vg, vb`. -/
def assemble (ASHIFT vr vg vb p : Nat) : Nat :=
  (SHIFT vr ((RSHIFT ASHIFT : Int) - 16) &&& RMASK ASHIFT)
    ||| (SHIFT vg ((GSHIFT ASHIFT : Int) - 16) &&& GMASK ASHIFT)
    ||| (SHIFT vb ((BSHIFT ASHIFT : Int) - 16) &&& BMASK ASHIFT)
    ||| (p &&& AMASK ASHIFT)

/-- Bounded universal quantifier as a computation: `p k` for every `k < n`. -/
def all_below (p : Nat → Bool) : Nat → Bool
  | 0 => true
  | n + 1 => p n && all_below p n

/-- Colour `c` at alpha `a`, premultiplied and unpremultiplied again, comes
back within `1 + 255 / (2 * a)` levels of `c` (checked for one pair). -/
def roundtrip_within (a c : Nat) : Bool :=
  let c1 := (c * a * 257 + 32768) / 65536
  let c2 := c1 * R a / 65536 % 256
  a == 0 || (Nat.ble c2 (c + (1 + 255 / (2 * a))) && Nat.ble c (c2 + (1 + 255 / (2 * a))))

/-- The integer `v` is nearest to the rational `n / d`, that is
`|v - n / d| ≤ 1 / 2`. -/
def nearest (v n d : Nat) : Prop := 2 * d * v ≤ 2 * n + d ∧ 2 * n ≤ 2 * d * v + d

instance (v n d : Nat) : Decidable (nearest v n d) := by
  unfold nearest; infer_instance

/-- Position of a mode in one iteration of the outer loop: the inner loops come
after the probe. -/
def Mode.rank : Mode → Nat
  | .probe => 0
  | .solid => 1
  | .const _ _ => 1

/-- Loop invariant of `row_loop` at index `i`, for a run that started on the
memory `m0`: the pixels below `i` of the destination row hold the transformed
source pixels and the source pixels from `i` on are still the original ones. -/
def RowInv (px : Nat → Nat) (m0 : Mem) (dst src n i : Nat) (m : Mem) : Prop :=
  m.length = m0.length
    ∧ (∀ j, j < n → j < i → m[dst + j]? = (m0[src + j]?).map px)
    ∧ (∀ j, j < n → i ≤ j → m[src + j]? = m0[src + j]?)

/-- What a run of a row transform that started on `m0` leaves behind: every
pixel of the destination row holds the transformed source pixel, and the run
ended by itself. -/
def RowPost (px : Nat → Nat) (m0 : Mem) (dst src n : Nat) (o : Outcome) : Prop :=
  (∀ j, j < n → o.mem[dst + j]? = (m0[src + j]?).map px)
    ∧ (∀ m', o ≠ .timeout m') ∧ o.mem.length = m0.length

instance (m : Mem) : Decidable m.wf := by
  unfold Mem.wf; infer_instance

/-! ## The probe flags of the row functions -/

/-- The variable `accu` of the row functions after a probe of the pixels
`rgba0 = src[i]` and `rgba1 = src[i+1]`: `unsigned accu = -2*255;` followed by
`accu += a;` for the alpha of each of the two pixels. -/
def probe_accu (ASHIFT rgba0 rgba1 : Nat) : Nat :=
  ((2 ^ 32 - 2 * 255 + ((rgba0 >>> ASHIFT) &&& 255)) % 2 ^ 32
    + ((rgba1 >>> ASHIFT) &&& 255)) % 2 ^ 32

/-- The variable `diff` of the row functions after a probe of the pixels
`rgba0 = src[i]` (which is `const_in`) and `rgba1 = src[i+1]`:
`diff = rgba ^ const_in;`. -/
def probe_diff (rgba0 rgba1 : Nat) : Nat := rgba1 ^^^ rgba0

/-! ## Rectangles and the surface functions of `cairosdl.c` -/

/-- The rectangle type of SDL 1.2, whose header declares the fields as
`Sint16 x, y; Uint16 w, h;`.  The fields hold the values as integers. -/
structure SDL_Rect where
  /-- column of the left edge -/
  x : Int
  /-- row of the top edge -/
  y : Int
  /-- width in pixels -/
  w : Int
  /-- height in pixels -/
  h : Int
  deriving DecidableEq, Repr

/-- Conversion of an integer to `Sint16`, keeping the low 16 bits. -/
def to_sint16 (v : Int) : Int := (v + 2 ^ 15) % 2 ^ 16 - 2 ^ 15

/-- Conversion of an integer to `Uint16`, keeping the low 16 bits. -/
def to_uint16 (v : Int) : Int := v % 2 ^ 16

/-- Result of 32 bit `int` arithmetic, keeping the low 32 bits. -/
def to_int (v : Int) : Int := (v + 2 ^ 31) % 2 ^ 32 - 2 ^ 31

/-- The cast `(unsigned)v` of an `int`. -/
def to_unsigned (v : Int) : Int := v % 2 ^ 32

/-- The constant `static SDL_Rect const empty_rect = {0,0,0,0};` of `make_rect`. -/
def empty_rect : SDL_Rect := { x := 0, y := 0, w := 0, h := 0 }

/-- Function `static SDL_Rect make_rect(int x, int y, int w, int h)`. -/
def make_rect (x y w h : Int) : SDL_Rect :=
  if w ≤ 0 ∨ h ≤ 0 then empty_rect
  else
    let w1 := if x < 0 then to_int (w + x) else w
    let x1 := if x < 0 then 0 else x
    let h1 := if y < 0 then to_int (h + y) else h
    let y1 := if y < 0 then 0 else y
    let w2 := if to_unsigned w1 > 32767 then 32767 else w1
    let h2 := if to_unsigned h1 > 32767 then 32767 else h1
    { x := to_sint16 x1, y := to_sint16 y1, w := to_uint16 w2, h := to_uint16 h2 }

/-- The loop `while (num_rects-- > 0) { ... }` of `cairosdl_surface_flush_rects`
over the rectangles still to do.  The `Sint32` values stay far inside 32 bits
because they come from 16 bit fields and surface sizes. -/
def flush_rects_loop (ASHIFT target_bytes target_stride source_bytes source_stride : Nat)
    (width height : Int) : List SDL_Rect → Mem → Outcome
  | [], m => .done m
  | rect :: rects, m =>
    let x := rect.x
    let y := rect.y
    let w := rect.w
    let h := rect.h
    let w1 := if x ≤ 0 then w + x else w
    let x1 := if x ≤ 0 then 0 else x
    let h1 := if y ≤ 0 then h + y else h
    let y1 := if y ≤ 0 then 0 else y
    let w2 := if x1 + w1 ≥ width then width - x1 else w1
    let h2 := if y1 + h1 ≥ height then height - y1 else h1
    match _cairosdl_blit_and_unpremultiply ASHIFT m
        (target_bytes + target_stride * y1.toNat + x1.toNat) target_stride
        (source_bytes + source_stride * y1.toNat + x1.toNat) source_stride w2 h2 with
    | .done m1 =>
      flush_rects_loop ASHIFT target_bytes target_stride source_bytes source_stride
        width height rects m1
    | .fault m1 => .fault m1
    | .timeout m1 => .timeout m1

/-- Function `void cairosdl_surface_flush_rects (cairo_surface_t *surface,
int num_rects, SDL_Rect const *rects)`, for a surface whose two buffers were
obtained: the target is the SDL buffer and the source is the shadow buffer,
each given by its byte address, stride, width and height.  The call of
`cairo_surface_flush` does not touch pixel memory. -/
def cairosdl_surface_flush_rects (ASHIFT : Nat) (m : Mem)
    (target_bytes target_stride target_width target_height : Nat)
    (source_bytes source_stride source_width source_height : Nat)
    (num_rects : Int) (rects : List SDL_Rect) : Outcome :=
  if num_rects ≤ 0 then .done m
  else
    let width : Int := if source_width < target_width then source_width else target_width
    let height : Int := if source_height < target_height then source_height else target_height
    flush_rects_loop ASHIFT target_bytes target_stride source_bytes source_stride
      width height (rects.take num_rects.toNat) m

/-- The loop `while (num_rects-- > 0) { ... }` of
`cairosdl_surface_mark_dirty_rects` over the rectangles still to do, with
`have_buffers` set.  The call of `cairo_surface_mark_dirty_rectangle` does not
touch pixel memory. -/
def mark_dirty_rects_loop (ASHIFT target_bytes target_stride source_bytes source_stride : Nat)
    (width height : Int) : List SDL_Rect → Mem → Outcome
  | [], m => .done m
  | rect :: rects, m =>
    let x := rect.x
    let y := rect.y
    let w := rect.w
    let h := rect.h
    let w1 := if x ≤ 0 then w + x else w
    let x1 := if x ≤ 0 then 0 else x
    let h1 := if y ≤ 0 then h + y else h
    let y1 := if y ≤ 0 then 0 else y
    if x1 ≥ width ∨ y1 ≥ height then
      mark_dirty_rects_loop ASHIFT target_bytes target_stride source_bytes source_stride
        width height rects m
    else
      let w2 := if x1 + w1 ≥ width then width - x1 else w1
      let h2 := if y1 + h1 ≥ height then height - y1 else h1
      if w2 ≤ 0 ∨ h2 ≤ 0 then
        mark_dirty_rects_loop ASHIFT target_bytes target_stride source_bytes source_stride
          width height rects m
      else
        match _cairosdl_blit_and_premultiply ASHIFT m
            (target_bytes + target_stride * y1.toNat + x1.toNat) target_stride
            (source_bytes + source_stride * y1.toNat + x1.toNat) source_stride w2 h2 with
        | .done m1 =>
          mark_dirty_rects_loop ASHIFT target_bytes target_stride source_bytes
            source_stride width height rects m1
        | .fault m1 => .fault m1
        | .timeout m1 => .timeout m1

/-- Function `void cairosdl_surface_mark_dirty_rects (cairo_surface_t *surface,
int num_rects, SDL_Rect const *rects)`, for a surface whose two buffers were
obtained: the target is the shadow buffer and the source is the SDL buffer,
each given by its byte address, stride, width and height. -/
def cairosdl_surface_mark_dirty_rects (ASHIFT : Nat) (m : Mem)
    (source_bytes source_stride source_width source_height : Nat)
    (target_bytes target_stride target_width target_height : Nat)
    (num_rects : Int) (rects : List SDL_Rect) : Outcome :=
  if num_rects ≤ 0 then .done m
  else
    let width : Int := if source_width < target_width then source_width else target_width
    let height : Int := if source_height < target_height then source_height else target_height
    mark_dirty_rects_loop ASHIFT target_bytes target_stride source_bytes source_stride
      width height (rects.take num_rects.toNat) m

/-! ## Bit-field arithmetic -/

theorem and_byte_mask (x s : Nat) : x &&& (255 <<< s) = (x / 2 ^ s % 256) * 2 ^ s := by
  have h255 : (255 : Nat) = 2 ^ 8 - 1 := by norm_num
  have h256 : (256 : Nat) = 2 ^ 8 := by norm_num
  rw [← Nat.shiftRight_eq_div_pow, ← Nat.shiftLeft_eq, h255, h256]
  apply Nat.eq_of_testBit_eq
  intro i
  simp only [Nat.testBit_and, Nat.testBit_shiftLeft, Nat.testBit_two_pow_sub_one,
    Nat.testBit_mod_two_pow, Nat.testBit_shiftRight]
  by_cases h : s ≤ i
  · have : s + (i - s) = i := by omega
    simp [h, this, Bool.and_comm]
  · simp [h]

theorem and_mask0 (x : Nat) : x &&& 255 = x % 256 := by
  simpa using and_byte_mask x 0

theorem and_mask8 (x : Nat) : x &&& 65280 = (x / 256 % 256) * 256 := by
  simpa using and_byte_mask x 8

theorem and_mask16 (x : Nat) : x &&& 16711680 = (x / 65536 % 256) * 65536 := by
  simpa using and_byte_mask x 16

theorem and_mask24 (x : Nat) : x &&& 4278190080 = (x / 16777216 % 256) * 16777216 := by
  simpa using and_byte_mask x 24

theorem or4_sum (x3 x2 x1 x0 : Nat) (h2 : x2 < 256) (h1 : x1 < 256) (h0 : x0 < 256) :
    x3 * 16777216 ||| (x2 * 65536 ||| (x1 * 256 ||| x0)) =
      x3 * 16777216 + x2 * 65536 + x1 * 256 + x0 := by
  have e0 : x1 * 256 ||| x0 = x1 * 256 + x0 := by
    have := Nat.mul_add_lt_is_or (i := 8) (b := x0) (by omega) x1
    rw [Nat.mul_comm]; exact this.symm
  have e1 : x2 * 65536 ||| (x1 * 256 + x0) = x2 * 65536 + (x1 * 256 + x0) := by
    have := Nat.mul_add_lt_is_or (i := 16) (b := x1 * 256 + x0) (by omega) x2
    rw [Nat.mul_comm]; exact this.symm
  have e2 : x3 * 16777216 ||| (x2 * 65536 + (x1 * 256 + x0)) =
      x3 * 16777216 + (x2 * 65536 + (x1 * 256 + x0)) := by
    have := Nat.mul_add_lt_is_or (i := 24) (b := x2 * 65536 + (x1 * 256 + x0)) (by omega) x3
    rw [Nat.mul_comm]; exact this.symm
  rw [e0, e1, e2]; omega


theorem or4_rot0 (x3 x2 x1 x0 : Nat) (h2 : x2 < 256) (h1 : x1 < 256) (h0 : x0 < 256) :
    x3 * 16777216 ||| x2 * 65536 ||| x1 * 256 ||| x0 =
      x3 * 16777216 + x2 * 65536 + x1 * 256 + x0 := by
  rw [← or4_sum x3 x2 x1 x0 h2 h1 h0]; ac_rfl

theorem or4_rot8 (x3 x2 x1 x0 : Nat) (h2 : x2 < 256) (h1 : x1 < 256) (h0 : x0 < 256) :
    x0 ||| x3 * 16777216 ||| x2 * 65536 ||| x1 * 256 =
      x3 * 16777216 + x2 * 65536 + x1 * 256 + x0 := by
  rw [← or4_sum x3 x2 x1 x0 h2 h1 h0]; ac_rfl

theorem or4_rot16 (x3 x2 x1 x0 : Nat) (h2 : x2 < 256) (h1 : x1 < 256) (h0 : x0 < 256) :
    x1 * 256 ||| x0 ||| x3 * 16777216 ||| x2 * 65536 =
      x3 * 16777216 + x2 * 65536 + x1 * 256 + x0 := by
  rw [← or4_sum x3 x2 x1 x0 h2 h1 h0]; ac_rfl

theorem or4_rot24 (x3 x2 x1 x0 : Nat) (h2 : x2 < 256) (h1 : x1 < 256) (h0 : x0 < 256) :
    x2 * 65536 ||| x1 * 256 ||| x0 ||| x3 * 16777216 =
      x3 * 16777216 + x2 * 65536 + x1 * 256 + x0 := by
  rw [← or4_sum x3 x2 x1 x0 h2 h1 h0]; ac_rfl

theorem assemble_eq (A vr vg vb p : Nat) (hA : A = 0 ∨ A = 8 ∨ A = 16 ∨ A = 24) :
    assemble A vr vg vb p =
      (vr / 65536 % 256) * 2 ^ RSHIFT A + (vg / 65536 % 256) * 2 ^ GSHIFT A
        + (vb / 65536 % 256) * 2 ^ BSHIFT A + (p / 2 ^ A % 256) * 2 ^ A := by
  rcases hA with rfl | rfl | rfl | rfl
  · simp [assemble, SHIFT, RSHIFT, GSHIFT, BSHIFT, AMASK, RMASK, GMASK, BMASK,
      Nat.shiftRight_eq_div_pow, Nat.shiftLeft_eq, and_mask0, and_mask8, and_mask16, and_mask24]
    rw [or4_rot0 _ _ _ _ (by omega) (by omega) (by omega)]; omega
  · simp [assemble, SHIFT, RSHIFT, GSHIFT, BSHIFT, AMASK, RMASK, GMASK, BMASK,
      Nat.shiftRight_eq_div_pow, Nat.shiftLeft_eq, and_mask0, and_mask8, and_mask16, and_mask24]
    rw [or4_rot8 _ _ _ _ (by omega) (by omega) (by omega)]; omega
  · simp [assemble, SHIFT, RSHIFT, GSHIFT, BSHIFT, AMASK, RMASK, GMASK, BMASK,
      Nat.shiftRight_eq_div_pow, Nat.shiftLeft_eq, and_mask0, and_mask8, and_mask16, and_mask24]
    rw [or4_rot16 _ _ _ _ (by omega) (by omega) (by omega)]; omega
  · simp [assemble, SHIFT, RSHIFT, GSHIFT, BSHIFT, AMASK, RMASK, GMASK, BMASK,
      Nat.shiftRight_eq_div_pow, Nat.shiftLeft_eq, and_mask0, and_mask8, and_mask16, and_mask24]
    rw [or4_rot24 _ _ _ _ (by omega) (by omega) (by omega)]; omega

theorem channel_eq (s p : Nat) : channel s p = p / 2 ^ s % 256 := by
  simp [channel, Nat.shiftRight_eq_div_pow, and_mask0]

theorem channel_lt (s p : Nat) : channel s p < 256 := by
  rw [channel_eq]; omega

theorem channel_assemble (A vr vg vb p : Nat) (hA : A = 0 ∨ A = 8 ∨ A = 16 ∨ A = 24) :
    channel (RSHIFT A) (assemble A vr vg vb p) = vr / 65536 % 256
      ∧ channel (GSHIFT A) (assemble A vr vg vb p) = vg / 65536 % 256
      ∧ channel (BSHIFT A) (assemble A vr vg vb p) = vb / 65536 % 256
      ∧ channel A (assemble A vr vg vb p) = channel A p
      ∧ assemble A vr vg vb p < 2 ^ 32 := by
  rw [assemble_eq A vr vg vb p hA]
  simp only [channel_eq]
  rcases hA with rfl | rfl | rfl | rfl <;>
    simp only [RSHIFT, GSHIFT, BSHIFT] <;> norm_num <;> omega

theorem reciprocal_table_getD (a : Nat) (h : a < 256) : reciprocal_table.getD a 0 = R a := by
  simp [reciprocal_table, List.getD_eq_getElem?_getD, List.getElem?_range h]

theorem unpremultiply_pixel_eq (A p : Nat) :
    unpremultiply_pixel A p =
      assemble A (channel (RSHIFT A) p * R (channel A p) % 2 ^ 32)
        (channel (GSHIFT A) p * R (channel A p) % 2 ^ 32)
        (channel (BSHIFT A) p * R (channel A p) % 2 ^ 32) p := by
  simp only [← reciprocal_table_getD _ (channel_lt A p)]
  rfl

theorem premultiply_pixel_eq (A p : Nat) :
    premultiply_pixel A p =
      assemble A ((channel (RSHIFT A) p * channel A p * 257 + 32768) % 2 ^ 32)
        ((channel (GSHIFT A) p * channel A p * 257 + 32768) % 2 ^ 32)
        ((channel (BSHIFT A) p * channel A p * 257 + 32768) % 2 ^ 32) p := by
  rfl

theorem R_le (a : Nat) : R a ≤ 16711680 := by
  unfold R ceil_div RECIPROCAL_BITS
  split
  · rename_i h
    have h1 : 1 ≤ a := Nat.one_le_iff_ne_zero.mpr h
    have h2 : 16711680 * 1 ≤ 16711680 * a := Nat.mul_le_mul_left _ h1
    have h3 : (255 * 1 <<< 16 + a - 1) / a < 16711680 + 1 := by
      rw [Nat.div_lt_iff_lt_mul (by omega)]
      norm_num [Nat.shiftLeft_eq]
      omega
    omega
  · omega

theorem R_mul_le (a : Nat) (h : 1 ≤ a) : R a * a ≤ 16711680 + a - 1 := by
  unfold R ceil_div RECIPROCAL_BITS
  rw [if_pos (by omega)]
  have := Nat.div_mul_le_self (255 * 1 <<< 16 + a - 1) a
  norm_num [Nat.shiftLeft_eq] at this ⊢
  exact this

theorem R_mul_ge (a : Nat) (h : 1 ≤ a) : 16711680 ≤ R a * a := by
  unfold R ceil_div RECIPROCAL_BITS
  rw [if_pos (by omega)]
  have h1 := Nat.div_add_mod (255 * 1 <<< 16 + a - 1) a
  have h2 := Nat.mod_lt (255 * 1 <<< 16 + a - 1) (show a > 0 by omega)
  norm_num [Nat.shiftLeft_eq] at h1 h2 ⊢
  rw [Nat.mul_comm] at h1
  omega

theorem unpremultiply_product_lt (c a : Nat) (hc : c < 256) : c * R a < 2 ^ 32 := by
  have h1 : c * R a ≤ 255 * 16711680 := Nat.mul_le_mul (by omega) (R_le a)
  omega

theorem premultiply_product_lt (c a : Nat) (hc : c < 256) (ha : a < 256) :
    c * a * 257 + 32768 < 2 ^ 32 := by
  have h1 : c * a ≤ 255 * 255 := Nat.mul_le_mul (by omega) (by omega)
  omega

/-- The channels of an unpremultiplied pixel. -/
theorem channel_unpremultiply_pixel (A p : Nat) (hA : A = 0 ∨ A = 8 ∨ A = 16 ∨ A = 24) :
    channel (RSHIFT A) (unpremultiply_pixel A p)
        = channel (RSHIFT A) p * R (channel A p) / 65536 % 256
      ∧ channel (GSHIFT A) (unpremultiply_pixel A p)
        = channel (GSHIFT A) p * R (channel A p) / 65536 % 256
      ∧ channel (BSHIFT A) (unpremultiply_pixel A p)
        = channel (BSHIFT A) p * R (channel A p) / 65536 % 256
      ∧ channel A (unpremultiply_pixel A p) = channel A p
      ∧ unpremultiply_pixel A p < 2 ^ 32 := by
  rw [unpremultiply_pixel_eq]
  simp only [Nat.mod_eq_of_lt (unpremultiply_product_lt _ _ (channel_lt _ _))]
  exact channel_assemble A _ _ _ p hA

/-- The channels of a premultiplied pixel. -/
theorem channel_premultiply_pixel (A p : Nat) (hA : A = 0 ∨ A = 8 ∨ A = 16 ∨ A = 24) :
    channel (RSHIFT A) (premultiply_pixel A p)
        = (channel (RSHIFT A) p * channel A p * 257 + 32768) / 65536
      ∧ channel (GSHIFT A) (premultiply_pixel A p)
        = (channel (GSHIFT A) p * channel A p * 257 + 32768) / 65536
      ∧ channel (BSHIFT A) (premultiply_pixel A p)
        = (channel (BSHIFT A) p * channel A p * 257 + 32768) / 65536
      ∧ channel A (premultiply_pixel A p) = channel A p
      ∧ premultiply_pixel A p < 2 ^ 32 := by
  rw [premultiply_pixel_eq]
  have h := channel_assemble A ((channel (RSHIFT A) p * channel A p * 257 + 32768) % 2 ^ 32)
    ((channel (GSHIFT A) p * channel A p * 257 + 32768) % 2 ^ 32)
    ((channel (BSHIFT A) p * channel A p * 257 + 32768) % 2 ^ 32) p hA
  have hr := channel_lt (RSHIFT A) p
  have hg := channel_lt (GSHIFT A) p
  have hb := channel_lt (BSHIFT A) p
  have ha := channel_lt A p
  have e : ∀ c, c < 256 → (c * channel A p * 257 + 32768) % 2 ^ 32 / 65536 % 256
      = (c * channel A p * 257 + 32768) / 65536 := by
    intro c hc
    have h1 : c * channel A p ≤ 255 * 255 := Nat.mul_le_mul (by omega) (by omega)
    rw [Nat.mod_eq_of_lt (premultiply_product_lt c _ hc ha)]
    omega
  rw [e _ hr, e _ hg, e _ hb] at h
  exact h

/-- A 32 bit word is fixed by its four bytes. -/
theorem eq_of_channels (A p q : Nat) (hA : A = 0 ∨ A = 8 ∨ A = 16 ∨ A = 24)
    (hp : p < 2 ^ 32) (hq : q < 2 ^ 32)
    (hr : channel (RSHIFT A) p = channel (RSHIFT A) q)
    (hg : channel (GSHIFT A) p = channel (GSHIFT A) q)
    (hb : channel (BSHIFT A) p = channel (BSHIFT A) q)
    (ha : channel A p = channel A q) : p = q := by
  simp only [channel_eq] at hr hg hb ha
  rcases hA with rfl | rfl | rfl | rfl <;>
    simp only [RSHIFT, GSHIFT, BSHIFT] at hr hg hb <;> norm_num at hr hg hb ha <;> omega

theorem all_below_spec (p : Nat → Bool) (n : Nat) (h : all_below p n = true) :
    ∀ k < n, p k = true := by
  induction n with
  | zero => intro k hk; omega
  | succ n ih =>
    simp only [all_below, Bool.and_eq_true] at h
    intro k hk
    rcases Nat.lt_succ_iff_lt_or_eq.mp hk with h1 | rfl
    · exact ih h.2 k h1
    · exact h.1

set_option maxRecDepth 100000 in
theorem roundtrip_within_all :
    all_below (fun a => all_below (fun c => roundtrip_within a c) 256) 256 = true := by
  decide!

theorem roundtrip_channel (a c : Nat) (ha : 0 < a) (ha' : a < 256) (hc : c < 256) :
    (c * a * 257 + 32768) / 65536 * R a / 65536 % 256 ≤ c + (1 + 255 / (2 * a))
      ∧ c ≤ (c * a * 257 + 32768) / 65536 * R a / 65536 % 256 + (1 + 255 / (2 * a)) := by
  have h := all_below_spec _ _ (all_below_spec _ _ roundtrip_within_all a ha') c hc
  simp only [roundtrip_within, Bool.or_eq_true, Bool.and_eq_true, beq_iff_eq,
    Nat.ble_eq] at h
  rcases h with h | h
  · omega
  · exact h

theorem R_solid : R 255 = 65536 := by decide

theorem amask_test (A p : Nat) (hA : A = 0 ∨ A = 8 ∨ A = 16 ∨ A = 24) :
    AMASK A = (p &&& AMASK A) ↔ channel A p = 255 := by
  rw [channel_eq]
  rcases hA with rfl | rfl | rfl | rfl <;>
    simp [AMASK, and_mask0, and_mask8, and_mask16, and_mask24] <;> omega

theorem unpremultiply_pixel_solid (A p : Nat) (hA : A = 0 ∨ A = 8 ∨ A = 16 ∨ A = 24)
    (hp : p < 2 ^ 32) (ha : channel A p = 255) : unpremultiply_pixel A p = p := by
  obtain ⟨hr, hg, hb, haa, hlt⟩ := channel_unpremultiply_pixel A p hA
  rw [ha, R_solid] at hr hg hb
  have h1 := channel_lt (RSHIFT A) p
  have h2 := channel_lt (GSHIFT A) p
  have h3 := channel_lt (BSHIFT A) p
  exact eq_of_channels A _ _ hA hlt hp (by omega) (by omega) (by omega) haa

theorem premultiply_pixel_solid (A p : Nat) (hA : A = 0 ∨ A = 8 ∨ A = 16 ∨ A = 24)
    (hp : p < 2 ^ 32) (ha : channel A p = 255) : premultiply_pixel A p = p := by
  obtain ⟨hr, hg, hb, haa, hlt⟩ := channel_premultiply_pixel A p hA
  rw [ha] at hr hg hb
  have h1 := channel_lt (RSHIFT A) p
  have h2 := channel_lt (GSHIFT A) p
  have h3 := channel_lt (BSHIFT A) p
  exact eq_of_channels A _ _ hA hlt hp (by omega) (by omega) (by omega) haa

theorem premultiply_nearest_iff (x : Nat) (hx : x ≤ 255 * 255) :
    nearest ((x * 257 + 32768) / 65536) x 255 ↔ ¬ (x % 255 = 128 ∧ 33023 ≤ x) := by
  unfold nearest
  obtain ⟨k, r, hk, hr, rfl⟩ : ∃ k r, k ≤ 255 ∧ r < 255 ∧ x = 255 * k + r :=
    ⟨x / 255, x % 255, by omega, by omega, by omega⟩
  have hmod : (255 * k + r) % 255 = r := by omega
  rw [hmod]
  have hm : ((255 * k + r) * 257 + 32768) / 65536 = k + (257 * r + 32768 - k) / 65536 := by
    omega
  rw [hm]
  by_cases h1 : 257 * r + 32768 - k < 65536
  · have : (257 * r + 32768 - k) / 65536 = 0 := by omega
    rw [this]
    omega
  · have : (257 * r + 32768 - k) / 65536 = 1 := by omega
    rw [this]
    omega

/-! ## The row loop -/

theorem RowInv.advance {px : Nat → Nat} {m0 : Mem} {dst src n i : Nat} {m : Mem} {v : Nat}
    (hno : dst ≤ src ∨ src + n ≤ dst) (h : RowInv px m0 dst src n i m) (hi : i < n)
    (hd : dst + i < m.length) (hv : m[src + i]? = some v) :
    RowInv px m0 dst src n (i + 1) (m.set (dst + i) (px v)) := by
  obtain ⟨hlen, hdone, hpend⟩ := h
  refine ⟨by rw [List.length_set, hlen], fun j hj hji => ?_, fun j hj hij => ?_⟩
  · rcases Nat.lt_succ_iff_lt_or_eq.mp hji with h1 | rfl
    · rw [List.getElem?_set_ne (by omega)]
      exact hdone j hj h1
    · rw [List.getElem?_set_self hd, ← hpend j hj (Nat.le_refl _), hv]
      rfl
  · rw [List.getElem?_set_ne (by omega)]
    exact hpend j hj (by omega)

theorem RowInv.overrun {px : Nat → Nat} {m0 : Mem} {dst src n i : Nat} {m : Mem} (v : Nat)
    (h : RowInv px m0 dst src n i m) (hi : n ≤ i) :
    RowInv px m0 dst src n (i + 1) (m.set (dst + i) v) := by
  obtain ⟨hlen, hdone, hpend⟩ := h
  refine ⟨by rw [List.length_set, hlen], fun j hj hji => ?_, fun j hj hij => ?_⟩
  · rw [List.getElem?_set_ne (by omega)]
    exact hdone j hj (by omega)
  · omega

theorem RowInv.post_done {px : Nat → Nat} {m0 : Mem} {dst src n i : Nat} {m : Mem}
    (h : RowInv px m0 dst src n i m) (hi : n ≤ i) : RowPost px m0 dst src n (.done m) :=
  ⟨fun j hj => h.2.1 j hj (by omega), fun _ h' => Outcome.noConfusion h', h.1⟩

theorem RowInv.post_fault {px : Nat → Nat} {m0 : Mem} {dst src n i : Nat} {m : Mem}
    (h : RowInv px m0 dst src n i m) (hi : n ≤ i) : RowPost px m0 dst src n (.fault m) :=
  ⟨fun j hj => h.2.1 j hj (by omega), fun _ h' => Outcome.noConfusion h', h.1⟩

theorem RowInv.read {px : Nat → Nat} {m0 : Mem} {dst src n i : Nat} {m : Mem} {v : Nat}
    (hwf : m0.wf) (h : RowInv px m0 dst src n i m) (hi : i < n)
    (hv : m[src + i]? = some v) : v < 2 ^ 32 := by
  rw [h.2.2 i hi (Nat.le_refl _)] at hv
  exact hwf v (List.getElem?_mem hv)

theorem row_loop_post (px : Nat → Nat) (A dst src n : Nat) (m0 : Mem)
    (hpx : ∀ p, p < 2 ^ 32 → AMASK A = (p &&& AMASK A) → px p = p)
    (hwf : m0.wf) (hsrc : src + n ≤ m0.length) (hdst : dst + n ≤ m0.length)
    (hno : dst ≤ src ∨ src + n ≤ dst) :
    ∀ (fuel : Nat) (mode : Mode) (i : Nat) (m : Mem),
      RowInv px m0 dst src n i m →
      (∀ cin cout, mode = .const cin cout → cout = px cin) →
      2 * (m0.length - i) + mode.rank < fuel →
      RowPost px m0 dst src n (row_loop px A dst src n fuel mode i m) := by
  intro fuel
  induction fuel with
  | zero => intro mode i m _ _ hf; omega
  | succ fuel ih =>
    intro mode i m hinv hmode hf
    have hlen := hinv.1
    cases mode with
    | probe =>
      simp only [Mode.rank] at hf
      rw [row_loop]
      by_cases hi : i < n
      · rw [if_pos hi]
        cases h0 : m[src + i]? with
        | none =>
          rw [List.getElem?_eq_none_iff] at h0
          omega
        | some rgba0 =>
          have hd0 : dst + i < m.length := by omega
          simp only [if_pos hd0]
          have hinv1 := hinv.advance hno hi hd0 h0
          by_cases hlast : i + 1 = n
          · rw [if_pos hlast]
            exact hinv1.post_done (by omega)
          · rw [if_neg hlast]
            have hi1 : i + 1 < n := by omega
            cases h1 : (m.set (dst + i) (px rgba0))[src + (i + 1)]? with
            | none =>
              rw [List.getElem?_eq_none_iff, List.length_set] at h1
              omega
            | some rgba1 =>
              have hd1 : dst + (i + 1) < (m.set (dst + i) (px rgba0)).length := by
                rw [List.length_set]; omega
              simp only [if_pos hd1]
              have hinv2 := hinv1.advance hno hi1 hd1 h1
              have hfuel : ∀ mode' : Mode, mode'.rank ≤ 1 →
                  2 * (m0.length - (i + 1 + 1)) + mode'.rank < fuel := by
                intro mode' hr; omega
              split
              · exact ih .probe _ _ hinv2 (fun _ _ h => by cases h) (hfuel _ (by simp [Mode.rank]))
              · split
                · exact ih .solid _ _ hinv2 (fun _ _ h => by cases h)
                    (hfuel _ (by simp [Mode.rank]))
                · split
                  · refine ih (.const rgba0 (px rgba0)) _ _ hinv2 ?_
                      (hfuel _ (by simp [Mode.rank]))
                    intro cin cout h
                    cases h
                    rfl
                  · exact ih .probe _ _ hinv2 (fun _ _ h => by cases h)
                      (hfuel _ (by simp [Mode.rank]))
      · rw [if_neg hi]
        exact hinv.post_done (by omega)
    | solid =>
      simp only [Mode.rank] at hf
      rw [row_loop]
      cases h0 : m[src + i]? with
      | none =>
        rw [List.getElem?_eq_none_iff] at h0
        exact hinv.post_fault (by omega)
      | some inp =>
        have hsi : src + i < m.length := by
          obtain ⟨h, -⟩ := List.getElem?_eq_some.mp h0
          exact h
        simp only []
        by_cases htest : AMASK A = (inp &&& AMASK A)
        · rw [if_pos htest]
          by_cases hd0 : dst + i < m.length
          · rw [if_pos hd0]
            have hinv1 : RowInv px m0 dst src n (i + 1) (m.set (dst + i) inp) := by
              by_cases hi : i < n
              · have := hinv.advance hno hi hd0 h0
                rwa [hpx inp (hinv.read hwf hi h0) htest] at this
              · exact hinv.overrun inp (by omega)
            by_cases hlast : i + 1 = n
            · simp only [if_pos hlast]
              exact hinv1.post_done (by omega)
            · simp only [if_neg hlast]
              exact ih .solid _ _ hinv1 (fun _ _ h => by cases h)
                (by simp only [Mode.rank]; omega)
          · rw [if_neg hd0]
            exact hinv.post_fault (by omega)
        · rw [if_neg htest]
          exact ih .probe _ _ hinv (fun _ _ h => by cases h) (by simp only [Mode.rank]; omega)
    | const cin cout =>
      simp only [Mode.rank] at hf
      have hcout : cout = px cin := hmode cin cout rfl
      rw [row_loop]
      cases h0 : m[src + i]? with
      | none =>
        rw [List.getElem?_eq_none_iff] at h0
        exact hinv.post_fault (by omega)
      | some inp =>
        have hsi : src + i < m.length := by
          obtain ⟨h, -⟩ := List.getElem?_eq_some.mp h0
          exact h
        simp only []
        by_cases htest : inp = cin
        · rw [if_pos htest]
          by_cases hd0 : dst + i < m.length
          · rw [if_pos hd0]
            have hinv1 : RowInv px m0 dst src n (i + 1) (m.set (dst + i) cout) := by
              by_cases hi : i < n
              · have := hinv.advance hno hi hd0 h0
                rwa [htest, ← hcout] at this
              · exact hinv.overrun cout (by omega)
            by_cases hlast : i + 1 = n
            · simp only [if_pos hlast]
              exact hinv1.post_done (by omega)
            · simp only [if_neg hlast]
              exact ih (.const cin cout) _ _ hinv1 hmode (by simp only [Mode.rank]; omega)
          · rw [if_neg hd0]
            exact hinv.post_fault (by omega)
        · rw [if_neg htest]
          exact ih .probe _ _ hinv (fun _ _ h => by cases h) (by simp only [Mode.rank]; omega)

theorem RowInv.init (px : Nat → Nat) (m : Mem) (dst src n : Nat) :
    RowInv px m dst src n 0 m :=
  ⟨rfl, fun _ _ h => absurd h (Nat.not_lt_zero _), fun _ _ _ => rfl⟩

theorem row_post (px : Nat → Nat) (A dst src n : Nat) (m : Mem)
    (hpx : ∀ p, p < 2 ^ 32 → AMASK A = (p &&& AMASK A) → px p = p)
    (hwf : m.wf) (hsrc : src + n ≤ m.length) (hdst : dst + n ≤ m.length)
    (hno : dst ≤ src ∨ src + n ≤ dst) :
    RowPost px m dst src n (row_loop px A dst src n (row_fuel m) .probe 0 m) :=
  row_loop_post px A dst src n m hpx hwf hsrc hdst hno (row_fuel m) .probe 0 m
    (RowInv.init px m dst src n) (fun _ _ h => Mode.noConfusion h)
    (by simp only [Mode.rank, row_fuel]; omega)

theorem row_loop_ends (px : Nat → Nat) (A dst src n : Nat) :
    ∀ (fuel : Nat) (mode : Mode) (i : Nat) (m : Mem),
      2 * (m.length - i) + mode.rank < fuel →
      ∀ m', row_loop px A dst src n fuel mode i m ≠ .timeout m' := by
  intro fuel
  induction fuel with
  | zero => intro mode i m hf; omega
  | succ fuel ih =>
    intro mode i m hf m'
    have hbound : ∀ (v : Nat) (k : Nat), m[k]? = some v → k < m.length := by
      intro v k h
      obtain ⟨h', -⟩ := List.getElem?_eq_some.mp h
      exact h'
    cases mode with
    | probe =>
      simp only [Mode.rank] at hf
      rw [row_loop]
      split
      · split
        · exact Outcome.noConfusion
        · rename_i rgba0 h0
          have hs0 := hbound _ _ h0
          split
          · simp only []
            split
            · exact Outcome.noConfusion
            · split
              · exact Outcome.noConfusion
              · rename_i rgba1 h1
                have hs1 : src + (i + 1) < m.length := by
                  obtain ⟨h', -⟩ := List.getElem?_eq_some.mp h1
                  simpa using h'
                have hfuel : ∀ mode' : Mode, mode'.rank ≤ 1 →
                    2 * (((m.set (dst + i) (px rgba0)).set (dst + (i + 1)) (px rgba1)).length
                      - (i + 1 + 1)) + mode'.rank < fuel := by
                  intro mode' hr
                  simp only [List.length_set]
                  omega
                split
                · split
                  · exact ih _ _ _ (hfuel .probe (by simp [Mode.rank])) m'
                  · split
                    · exact ih _ _ _ (hfuel .solid (by simp [Mode.rank])) m'
                    · split
                      · exact ih _ _ _ (hfuel (.const _ _) (by simp [Mode.rank])) m'
                      · exact ih _ _ _ (hfuel .probe (by simp [Mode.rank])) m'
                · exact Outcome.noConfusion
          · exact Outcome.noConfusion
      · exact Outcome.noConfusion
    | solid =>
      simp only [Mode.rank] at hf
      rw [row_loop]
      split
      · exact Outcome.noConfusion
      · rename_i inp h0
        have hs0 := hbound _ _ h0
        split
        · split
          · simp only []
            split
            · exact Outcome.noConfusion
            · exact ih _ _ _ (by simp only [Mode.rank, List.length_set]; omega) m'
          · exact Outcome.noConfusion
        · exact ih _ _ _ (by simp only [Mode.rank]; omega) m'
    | const cin cout =>
      simp only [Mode.rank] at hf
      rw [row_loop]
      split
      · exact Outcome.noConfusion
      · rename_i inp h0
        have hs0 := hbound _ _ h0
        split
        · split
          · simp only []
            split
            · exact Outcome.noConfusion
            · exact ih _ _ _ (by simp only [Mode.rank, List.length_set]; omega) m'
          · exact Outcome.noConfusion
        · exact ih _ _ _ (by simp only [Mode.rank]; omega) m'

/-- The iteration budget of the model is never exhausted: every run of a row
transform returns or stops at an access outside the memory. -/
theorem row_ends (A : Nat) (m : Mem) (dst src n : Nat) :
    (∀ m', unpremultiply_row A m dst src n ≠ .timeout m')
      ∧ ∀ m', premultiply_row A m dst src n ≠ .timeout m' :=
  ⟨row_loop_ends _ A dst src n _ _ _ _ (by simp only [Mode.rank, row_fuel]; omega),
    row_loop_ends _ A dst src n _ _ _ _ (by simp only [Mode.rank, row_fuel]; omega)⟩

/-! ## The claims -/

/-- C1: for every row length `n` and every source row of `n` pixels lying in
memory, with a destination row that does not start inside the source row (it
may coincide with it or be disjoint from it), `unpremultiply_row` and
`premultiply_row` with their run detection leave in `dst[j]`, for every
`j < n`, exactly the per-pixel transform of `src[j]`; the run always ends by
itself. -/
theorem row_transform_refines (A : Nat) (m : Mem) (dst src n : Nat)
    (hA : A = 0 ∨ A = 8 ∨ A = 16 ∨ A = 24) (hwf : m.wf)
    (hsrc : src + n ≤ m.length) (hdst : dst + n ≤ m.length)
    (hno : dst ≤ src ∨ src + n ≤ dst) :
    ((∀ j, j < n →
        (unpremultiply_row A m dst src n).mem[dst + j]?
          = (m[src + j]?).map (unpremultiply_pixel A))
      ∧ ∀ m', unpremultiply_row A m dst src n ≠ .timeout m')
    ∧ ((∀ j, j < n →
        (premultiply_row A m dst src n).mem[dst + j]?
          = (m[src + j]?).map (premultiply_pixel A))
      ∧ ∀ m', premultiply_row A m dst src n ≠ .timeout m') := by
  have hu := row_post (unpremultiply_pixel A) A dst src n m
    (fun p hp ht => unpremultiply_pixel_solid A p hA hp ((amask_test A p hA).mp ht))
    hwf hsrc hdst hno
  have hp := row_post (premultiply_pixel A) A dst src n m
    (fun p hp ht => premultiply_pixel_solid A p hA hp ((amask_test A p hA).mp ht))
    hwf hsrc hdst hno
  exact ⟨⟨hu.1, hu.2.1⟩, ⟨hp.1, hp.2.1⟩⟩

/-- C1 on the row `[0xFF804020, 0xFF804020, 0xFF804020, 0x80402010]` with alpha
at bit 24, transformed into the four words that follow it in memory. -/
theorem row_transform_refines_witness :
    (24 = 0 ∨ 24 = 8 ∨ 24 = 16 ∨ 24 = 24)
      ∧ Mem.wf [0xFF804020, 0xFF804020, 0xFF804020, 0x80402010, 0, 0, 0, 0]
      ∧ 0 + 4 ≤ [0xFF804020, 0xFF804020, 0xFF804020, 0x80402010, 0, 0, 0, 0].length
      ∧ 4 + 4 ≤ [0xFF804020, 0xFF804020, 0xFF804020, 0x80402010, 0, 0, 0, 0].length
      ∧ (4 ≤ 0 ∨ 0 + 4 ≤ 4)
      ∧ (((∀ j, j < 4 →
            (unpremultiply_row 24
                [0xFF804020, 0xFF804020, 0xFF804020, 0x80402010, 0, 0, 0, 0] 4 0 4).mem[4 + j]?
              = ([0xFF804020, 0xFF804020, 0xFF804020, 0x80402010, 0, 0, 0, 0][0 + j]?).map
                  (unpremultiply_pixel 24))
          ∧ ∀ m', unpremultiply_row 24
              [0xFF804020, 0xFF804020, 0xFF804020, 0x80402010, 0, 0, 0, 0] 4 0 4 ≠ .timeout m')
        ∧ ((∀ j, j < 4 →
            (premultiply_row 24
                [0xFF804020, 0xFF804020, 0xFF804020, 0x80402010, 0, 0, 0, 0] 4 0 4).mem[4 + j]?
              = ([0xFF804020, 0xFF804020, 0xFF804020, 0x80402010, 0, 0, 0, 0][0 + j]?).map
                  (premultiply_pixel 24))
          ∧ ∀ m', premultiply_row 24
              [0xFF804020, 0xFF804020, 0xFF804020, 0x80402010, 0, 0, 0, 0] 4 0 4 ≠ .timeout m'))
      ∧ unpremultiply_row 24 [0xFF804020, 0xFF804020, 0xFF804020, 0x80402010, 0, 0, 0, 0] 4 0 4
          = .done [0xFF804020, 0xFF804020, 0xFF804020, 0x80402010,
              0xFF804020, 0xFF804020, 0xFF804020, 0x807F3F1F] :=
  ⟨by decide, by decide, by decide, by decide, by decide,
    row_transform_refines 24 [0xFF804020, 0xFF804020, 0xFF804020, 0x80402010, 0, 0, 0, 0] 4 0 4
      (by decide) (by decide) (by decide) (by decide) (by decide),
    by decide⟩

/-- C2 as stated fails: the pixel `0x01020000` (alpha 1, red 2, alpha at bit
24) is unpremultiplied to red `254`, the low 8 bits of `510`, while the
saturated product `min 255 510` is `255`. -/
theorem unpremultiply_not_saturating :
    channel (RSHIFT 24) (unpremultiply_pixel 24 0x01020000) = 254
      ∧ min 255 ((channel (RSHIFT 24) 0x01020000
          * reciprocal_table.getD (channel 24 0x01020000) 0) >>> 16) = 255 := by
  decide

/-- C2, amended: the unpremultiplied pixel keeps the alpha byte `a`, and each
colour channel `c` becomes the low 8 bits of `(c * reciprocal_table[a]) >> 16`
(the channel mask wraps, it does not saturate); when `c ≤ a`, as in every
premultiplied pixel, that product is at most 255 and the channel equals
`min 255 ((c * reciprocal_table[a]) >> 16)`. -/
theorem unpremultiply_pixel_channels (A s p : Nat) (hA : A = 0 ∨ A = 8 ∨ A = 16 ∨ A = 24)
    (hs : s = RSHIFT A ∨ s = GSHIFT A ∨ s = BSHIFT A) :
    channel A (unpremultiply_pixel A p) = channel A p
      ∧ channel s (unpremultiply_pixel A p)
          = ((channel s p * reciprocal_table.getD (channel A p) 0) >>> 16) % 256
      ∧ (channel s p ≤ channel A p →
          channel s (unpremultiply_pixel A p)
            = min 255 ((channel s p * reciprocal_table.getD (channel A p) 0) >>> 16)) := by
  obtain ⟨hr, hg, hb, haa, -⟩ := channel_unpremultiply_pixel A p hA
  rw [reciprocal_table_getD _ (channel_lt A p)]
  have key : channel s (unpremultiply_pixel A p)
      = channel s p * R (channel A p) / 65536 % 256 := by
    rcases hs with rfl | rfl | rfl <;> assumption
  have hsh : ∀ x : Nat, x >>> 16 = x / 65536 := fun x => by
    rw [Nat.shiftRight_eq_div_pow]
  refine ⟨haa, by rw [key, hsh], fun hle => ?_⟩
  rw [key, hsh]
  have hc := channel_lt s p
  have ha := channel_lt A p
  rcases Nat.eq_zero_or_pos (channel A p) with h0 | hpos
  · have : channel s p = 0 := by omega
    rw [this]; simp
  · have h1 : channel s p * R (channel A p) ≤ channel A p * R (channel A p) :=
      Nat.mul_le_mul_right _ hle
    have h2 := R_mul_le (channel A p) hpos
    rw [Nat.mul_comm] at h2
    have h3 : channel s p * R (channel A p) / 65536 ≤ 255 := by omega
    rw [Nat.mod_eq_of_lt (by omega), Nat.min_eq_right h3]

/-- C2, amended, at the pixel `0x80402010` with alpha at bit 24. -/
theorem unpremultiply_pixel_channels_witness :
    (24 = 0 ∨ 24 = 8 ∨ 24 = 16 ∨ 24 = 24)
      ∧ (16 = RSHIFT 24 ∨ 16 = GSHIFT 24 ∨ 16 = BSHIFT 24)
      ∧ channel 24 (unpremultiply_pixel 24 0x80402010) = channel 24 0x80402010
      ∧ channel 16 (unpremultiply_pixel 24 0x80402010)
          = ((channel 16 0x80402010 * reciprocal_table.getD (channel 24 0x80402010) 0) >>> 16)
              % 256
      ∧ (channel 16 0x80402010 ≤ channel 24 0x80402010 →
          channel 16 (unpremultiply_pixel 24 0x80402010)
            = min 255
                ((channel 16 0x80402010
                  * reciprocal_table.getD (channel 24 0x80402010) 0) >>> 16)) :=
  ⟨by decide, by decide,
    unpremultiply_pixel_channels 24 16 0x80402010 (by decide) (by decide)⟩

/-- C3 as stated fails: colour 229 at alpha 152 is premultiplied to 136, but
`229 * 152 / 255 = 136.502...` and the nearest integer is 137. -/
theorem premultiply_not_nearest :
    channel (RSHIFT 24) (premultiply_pixel 24 0x98E50000) = 136
      ∧ channel (RSHIFT 24) 0x98E50000 = 229 ∧ channel 24 0x98E50000 = 152
      ∧ (229 * 152 * 257 + 32768) >>> 16 = 136
      ∧ ¬ nearest 136 (229 * 152) 255 ∧ nearest 137 (229 * 152) 255 := by
  decide

/-- C3, amended: for colour `c` and alpha `a` the premultiplied channel is
`v = (c*a*257 + 32768) >> 16`; it is at most 255 and it is the integer nearest
to `c*a/255` or the one just below it.  It is the nearest integer exactly when
`c*a` is not of the form `255*k + 128` with `k ≥ 129` (that is `c*a ≥ 33023`). -/
theorem premultiply_pixel_channel (A s p : Nat) (hA : A = 0 ∨ A = 8 ∨ A = 16 ∨ A = 24)
    (hs : s = RSHIFT A ∨ s = GSHIFT A ∨ s = BSHIFT A) :
    channel s (premultiply_pixel A p) = (channel s p * channel A p * 257 + 32768) >>> 16
      ∧ channel s (premultiply_pixel A p) ≤ 255
      ∧ (nearest (channel s (premultiply_pixel A p)) (channel s p * channel A p) 255
          ∨ nearest (channel s (premultiply_pixel A p) + 1) (channel s p * channel A p) 255)
      ∧ (nearest (channel s (premultiply_pixel A p)) (channel s p * channel A p) 255
          ↔ ¬ (channel s p * channel A p % 255 = 128 ∧ 33023 ≤ channel s p * channel A p)) := by
  obtain ⟨hr, hg, hb, -, -⟩ := channel_premultiply_pixel A p hA
  have key : channel s (premultiply_pixel A p)
      = (channel s p * channel A p * 257 + 32768) / 65536 := by
    rcases hs with rfl | rfl | rfl <;> assumption
  have hc := channel_lt s p
  have ha := channel_lt A p
  have hx : channel s p * channel A p ≤ 255 * 255 := Nat.mul_le_mul (by omega) (by omega)
  rw [key, Nat.shiftRight_eq_div_pow]
  generalize channel s p * channel A p = x at hx
  refine ⟨rfl, by omega, ?_, premultiply_nearest_iff x hx⟩
  unfold nearest
  omega

/-- C3, amended, at colour 229 and alpha 152. -/
theorem premultiply_pixel_channel_witness :
    (24 = 0 ∨ 24 = 8 ∨ 24 = 16 ∨ 24 = 24)
      ∧ (16 = RSHIFT 24 ∨ 16 = GSHIFT 24 ∨ 16 = BSHIFT 24)
      ∧ channel 16 (premultiply_pixel 24 0x98E50000)
          = (channel 16 0x98E50000 * channel 24 0x98E50000 * 257 + 32768) >>> 16
      ∧ channel 16 (premultiply_pixel 24 0x98E50000) ≤ 255
      ∧ (nearest (channel 16 (premultiply_pixel 24 0x98E50000))
            (channel 16 0x98E50000 * channel 24 0x98E50000) 255
          ∨ nearest (channel 16 (premultiply_pixel 24 0x98E50000) + 1)
            (channel 16 0x98E50000 * channel 24 0x98E50000) 255)
      ∧ (nearest (channel 16 (premultiply_pixel 24 0x98E50000))
            (channel 16 0x98E50000 * channel 24 0x98E50000) 255
          ↔ ¬ (channel 16 0x98E50000 * channel 24 0x98E50000 % 255 = 128
              ∧ 33023 ≤ channel 16 0x98E50000 * channel 24 0x98E50000)) :=
  ⟨by decide, by decide, premultiply_pixel_channel 24 16 0x98E50000 (by decide) (by decide)⟩

/-- C4: `reciprocal_table[0]` is 0 and, for `1 ≤ i ≤ 255`, `reciprocal_table[i]`
is the ceiling of `255 * 2^16 / i`, the least `r` with `r * i ≥ 255 * 65536`;
every entry fits in 32 bits. -/
theorem reciprocal_table_spec (i : Nat) (hi : i ≤ 255) :
    ∃ r, reciprocal_table[i]? = some r ∧ r < 2 ^ 32 ∧ (i = 0 → r = 0)
      ∧ (1 ≤ i → 255 * 2 ^ 16 ≤ r * i ∧ ∀ r', 255 * 2 ^ 16 ≤ r' * i → r ≤ r') := by
  refine ⟨R i, ?_, ?_, ?_, ?_⟩
  · simp [reciprocal_table, List.getElem?_range (show i < 256 by omega)]
  · have := R_le i; omega
  · rintro rfl; rfl
  · intro h1
    have hge := R_mul_ge i h1
    have hle := R_mul_le i h1
    refine ⟨by omega, fun r' hr' => ?_⟩
    by_contra hlt
    have h2 : r' + 1 ≤ R i := by omega
    have h3 : (r' + 1) * i ≤ R i * i := Nat.mul_le_mul_right _ h2
    rw [Nat.add_mul] at h3
    omega

/-- C4 at the entry for alpha 128, which is `130560 = 255 * 65536 / 128`. -/
theorem reciprocal_table_spec_witness :
    128 ≤ 255 ∧ ∃ r, reciprocal_table[128]? = some r ∧ r < 2 ^ 32 ∧ (128 = 0 → r = 0)
      ∧ (1 ≤ 128 → 255 * 2 ^ 16 ≤ r * 128 ∧ ∀ r', 255 * 2 ^ 16 ≤ r' * 128 → r ≤ r') :=
  ⟨by decide, reciprocal_table_spec 128 (by decide)⟩

/-- C5 as stated fails: the straight-alpha pixel `0x01640000` (alpha 1, red
100) is premultiplied to red 0 and unpremultiplied back to red 0, which is 100
levels away from the original. -/
theorem roundtrip_not_within_one :
    0 < channel 24 0x01640000
      ∧ channel (RSHIFT 24) 0x01640000 = 100
      ∧ channel (RSHIFT 24) (premultiply_pixel 24 0x01640000) = 0
      ∧ channel (RSHIFT 24) (unpremultiply_pixel 24 (premultiply_pixel 24 0x01640000)) = 0 := by
  decide

/-- C5, amended: for a straight-alpha pixel with alpha `a > 0`,
`unpremultiply (premultiply P)` has exactly the alpha of `P` and each colour
channel differs from that of `P` by at most `1 + 255 / (2 * a)` levels (integer
division), hence by at most 1 when `a ≥ 128`. -/
theorem roundtrip_bound (A s p : Nat) (hA : A = 0 ∨ A = 8 ∨ A = 16 ∨ A = 24)
    (hs : s = RSHIFT A ∨ s = GSHIFT A ∨ s = BSHIFT A) (ha : 0 < channel A p) :
    channel A (unpremultiply_pixel A (premultiply_pixel A p)) = channel A p
      ∧ channel s (unpremultiply_pixel A (premultiply_pixel A p))
          ≤ channel s p + (1 + 255 / (2 * channel A p))
      ∧ channel s p
          ≤ channel s (unpremultiply_pixel A (premultiply_pixel A p))
            + (1 + 255 / (2 * channel A p))
      ∧ (128 ≤ channel A p →
          channel s (unpremultiply_pixel A (premultiply_pixel A p)) ≤ channel s p + 1
            ∧ channel s p ≤ channel s (unpremultiply_pixel A (premultiply_pixel A p)) + 1) := by
  obtain ⟨hr, hg, hb, haa, -⟩ := channel_premultiply_pixel A p hA
  obtain ⟨hr', hg', hb', haa', -⟩ := channel_unpremultiply_pixel A (premultiply_pixel A p) hA
  have key : channel s (unpremultiply_pixel A (premultiply_pixel A p))
      = (channel s p * channel A p * 257 + 32768) / 65536 * R (channel A p) / 65536 % 256 := by
    rcases hs with rfl | rfl | rfl
    · rw [hr', hr, haa]
    · rw [hg', hg, haa]
    · rw [hb', hb, haa]
  have hb := roundtrip_channel (channel A p) (channel s p) ha (channel_lt A p) (channel_lt s p)
  rw [← key] at hb
  refine ⟨by rw [haa', haa], hb.1, hb.2, fun h128 => ?_⟩
  have hz : 255 / (2 * channel A p) = 0 := by
    apply Nat.div_eq_of_lt; omega
  rw [hz] at hb
  exact hb

/-- C5, amended, at the half transparent pixel `0x80402010`. -/
theorem roundtrip_bound_witness :
    (24 = 0 ∨ 24 = 8 ∨ 24 = 16 ∨ 24 = 24)
      ∧ (16 = RSHIFT 24 ∨ 16 = GSHIFT 24 ∨ 16 = BSHIFT 24)
      ∧ 0 < channel 24 0x80402010
      ∧ channel 24 (unpremultiply_pixel 24 (premultiply_pixel 24 0x80402010))
          = channel 24 0x80402010
      ∧ channel 16 (unpremultiply_pixel 24 (premultiply_pixel 24 0x80402010))
          ≤ channel 16 0x80402010 + (1 + 255 / (2 * channel 24 0x80402010))
      ∧ channel 16 0x80402010
          ≤ channel 16 (unpremultiply_pixel 24 (premultiply_pixel 24 0x80402010))
            + (1 + 255 / (2 * channel 24 0x80402010))
      ∧ (128 ≤ channel 24 0x80402010 →
          channel 16 (unpremultiply_pixel 24 (premultiply_pixel 24 0x80402010))
              ≤ channel 16 0x80402010 + 1
            ∧ channel 16 0x80402010
              ≤ channel 16 (unpremultiply_pixel 24 (premultiply_pixel 24 0x80402010)) + 1) :=
  ⟨by decide, by decide, by decide,
    roundtrip_bound 24 16 0x80402010 (by decide) (by decide) (by decide)⟩

/-- C6 fails on the code: a row of two opaque pixels is followed in the source
by a third opaque pixel that is not part of the row.  Both row transforms, and
the blit of a 2 x 1 rectangle out of a surface that is 4 pixels wide (stride
16 bytes), read `src[2]` and overwrite `dst[2]` (the word at index 6, which held
7). -/
theorem row_overruns_its_end :
    unpremultiply_row 24 [0xFF000001, 0xFF000002, 0xFF000003, 0, 7, 7, 7, 7] 4 0 2
        = .done [0xFF000001, 0xFF000002, 0xFF000003, 0, 0xFF000001, 0xFF000002, 0xFF000003, 7]
      ∧ premultiply_row 24 [0xFF000001, 0xFF000002, 0xFF000003, 0, 7, 7, 7, 7] 4 0 2
        = .done [0xFF000001, 0xFF000002, 0xFF000003, 0, 0xFF000001, 0xFF000002, 0xFF000003, 7]
      ∧ _cairosdl_blit_and_unpremultiply 24
          [0xFF000001, 0xFF000002, 0xFF000003, 0, 7, 7, 7, 7] 16 16 0 16 2 1
        = .done [0xFF000001, 0xFF000002, 0xFF000003, 0, 0xFF000001, 0xFF000002, 0xFF000003, 7]
      ∧ _cairosdl_blit_and_premultiply 24
          [0xFF000001, 0xFF000002, 0xFF000003, 0, 7, 7, 7, 7] 16 16 0 16 2 1
        = .done [0xFF000001, 0xFF000002, 0xFF000003, 0, 0xFF000001, 0xFF000002, 0xFF000003, 7] := by
  decide

/-- C7 fails on the code: a 2 x 2 rectangle of a surface 3 pixels wide (stride
12 bytes) whose pixels all are `0x80202020`.  Blitted in place, the second row
ends as `0x807D7D7D` (unpremultiply) and `0x80080808` (premultiply); blitted
into a disjoint buffer at word 6 (byte 24) it ends as `0x803F3F3F` and
`0x80101010`. -/
theorem blit_in_place_differs :
    _cairosdl_blit_and_unpremultiply 24
        [0x80202020, 0x80202020, 0x80202020, 0x80202020, 0x80202020, 0] 0 12 0 12 2 2
      = .done [0x803F3F3F, 0x803F3F3F, 0x803F3F3F, 0x807D7D7D, 0x807D7D7D, 0]
    ∧ _cairosdl_blit_and_unpremultiply 24
        [0x80202020, 0x80202020, 0x80202020, 0x80202020, 0x80202020, 0, 9, 9, 9, 9, 9, 9]
        24 12 0 12 2 2
      = .done [0x80202020, 0x80202020, 0x80202020, 0x80202020, 0x80202020, 0,
          0x803F3F3F, 0x803F3F3F, 0x803F3F3F, 0x803F3F3F, 0x803F3F3F, 9]
    ∧ _cairosdl_blit_and_premultiply 24
        [0x80202020, 0x80202020, 0x80202020, 0x80202020, 0x80202020, 0] 0 12 0 12 2 2
      = .done [0x80101010, 0x80101010, 0x80101010, 0x80080808, 0x80080808, 0]
    ∧ _cairosdl_blit_and_premultiply 24
        [0x80202020, 0x80202020, 0x80202020, 0x80202020, 0x80202020, 0, 9, 9, 9, 9, 9, 9]
        24 12 0 12 2 2
      = .done [0x80202020, 0x80202020, 0x80202020, 0x80202020, 0x80202020, 0,
          0x80101010, 0x80101010, 0x80101010, 0x80101010, 0x80101010, 9] := by
  decide

/-- C8 fails on the code, for all pixels opaque.  First scenario: two disjoint
2 x 2 rectangles side by side in one surface 4 pixels wide (destination in
columns 0-1, source in columns 2-3, both strides 16 bytes).  The source pixel of row
1, column 0 is `0xFF000006`, whose transform is itself, but the destination
pixel of row 1, column 0 (word 4) ends as `0xFF000008`; the source pixel itself
(word 6) has been overwritten with `0xFF00000A`.  Second scenario: a packed
2 x 2 destination at words 0-3 (stride 8 bytes) and a source at word 4 (byte 16)
with stride 24 bytes.
The source pixel of row 1, column 0 is `0xFF00000A` (word 10), the destination
pixel of row 1, column 0 (word 2) ends as `0xFF00000E`. -/
theorem blit_disjoint_wrong_pixel :
    _cairosdl_blit_and_unpremultiply 24
        [0xFF000000, 0xFF000001, 0xFF000002, 0xFF000003,
         0xFF000004, 0xFF000005, 0xFF000006, 0xFF000007,
         0xFF000008, 0xFF000009, 0xFF00000A, 0] 0 16 8 16 2 2
      = .done [0xFF000002, 0xFF000003, 0xFF000004, 0xFF000005,
         0xFF000008, 0xFF000009, 0xFF00000A, 0xFF000009,
         0xFF00000A, 0xFF000009, 0xFF00000A, 0]
    ∧ _cairosdl_blit_and_premultiply 24
        [0xFF000000, 0xFF000001, 0xFF000002, 0xFF000003,
         0xFF000004, 0xFF000005, 0xFF000006, 0xFF000007,
         0xFF000008, 0xFF000009, 0xFF00000A, 0] 0 16 8 16 2 2
      = .done [0xFF000002, 0xFF000003, 0xFF000004, 0xFF000005,
         0xFF000008, 0xFF000009, 0xFF00000A, 0xFF000009,
         0xFF00000A, 0xFF000009, 0xFF00000A, 0]
    ∧ unpremultiply_pixel 24 0xFF000006 = 0xFF000006
    ∧ premultiply_pixel 24 0xFF000006 = 0xFF000006
    ∧ _cairosdl_blit_and_unpremultiply 24
        [0xFF000000, 0xFF000001, 0xFF000002, 0xFF000003,
         0xFF000004, 0xFF000005, 0xFF000006, 0xFF000007, 0xFF000008, 0xFF000009,
         0xFF00000A, 0xFF00000B, 0xFF00000C, 0xFF00000D, 0xFF00000E, 0xFF00000F,
         0xFF000010, 0xFF000011, 0xFF000012, 0] 0 8 16 24 2 2
      = .done [0xFF000004, 0xFF000005, 0xFF00000E, 0xFF00000F,
         0xFF000010, 0xFF000011, 0xFF000012, 0xFF00000F, 0xFF000010, 0xFF000011,
         0xFF000012, 0xFF00000F, 0xFF000010, 0xFF000011, 0xFF000012, 0xFF00000F,
         0xFF000010, 0xFF000011, 0xFF000012, 0]
    ∧ unpremultiply_pixel 24 0xFF00000A = 0xFF00000A := by
  decide

/-- C9: with `width ≤ 0` or `height ≤ 0`, whatever the pointers and strides,
both blit functions return normally and leave the memory unchanged. -/
theorem blit_empty_is_noop (A : Nat) (m : Mem)
    (target_buffer target_stride source_buffer source_stride : Nat) (width height : Int)
    (h : width ≤ 0 ∨ height ≤ 0) :
    _cairosdl_blit_and_unpremultiply A m target_buffer target_stride source_buffer
        source_stride width height = .done m
      ∧ _cairosdl_blit_and_premultiply A m target_buffer target_stride source_buffer
        source_stride width height = .done m := by
  unfold _cairosdl_blit_and_unpremultiply _cairosdl_blit_and_premultiply
  by_cases hw : width ≤ 0
  · simp only [if_pos hw, and_self]
  · have hh : height ≤ 0 := h.resolve_left hw
    have hz : height.toNat = 0 := Int.toNat_eq_zero.mpr hh
    simp only [if_neg hw, hz, blit_rows, and_self]

/-- C9 for a call with height `-1` on a three word memory. -/
theorem blit_empty_is_noop_witness :
    ((2 : Int) ≤ 0 ∨ (-1 : Int) ≤ 0)
      ∧ _cairosdl_blit_and_unpremultiply 24 [1, 2, 3] 0 8 0 8 2 (-1) = .done [1, 2, 3]
      ∧ _cairosdl_blit_and_premultiply 24 [1, 2, 3] 0 8 0 8 2 (-1) = .done [1, 2, 3] :=
  ⟨by decide, blit_empty_is_noop 24 [1, 2, 3] 0 8 0 8 2 (-1) (by decide)⟩

/-- C10: a 32 bit pixel whose alpha byte is 255 passes the test of the solid
run loop and is returned unchanged by both per-pixel transforms, so copying it
verbatim is the same as transforming it. -/
theorem solid_pixel_identity (A p : Nat) (hA : A = 0 ∨ A = 8 ∨ A = 16 ∨ A = 24)
    (hp : p < 2 ^ 32) (ha : channel A p = 255) :
    AMASK A = (p &&& AMASK A) ∧ unpremultiply_pixel A p = p ∧ premultiply_pixel A p = p :=
  ⟨(amask_test A p hA).mpr ha, unpremultiply_pixel_solid A p hA hp ha,
    premultiply_pixel_solid A p hA hp ha⟩

/-- C10 at the opaque pixel `0xFF804020`. -/
theorem solid_pixel_identity_witness :
    (24 = 0 ∨ 24 = 8 ∨ 24 = 16 ∨ 24 = 24) ∧ 0xFF804020 < 2 ^ 32
      ∧ channel 24 0xFF804020 = 255
      ∧ AMASK 24 = (0xFF804020 &&& AMASK 24)
      ∧ unpremultiply_pixel 24 0xFF804020 = 0xFF804020
      ∧ premultiply_pixel 24 0xFF804020 = 0xFF804020 :=
  ⟨by decide, by decide, by decide,
    solid_pixel_identity 24 0xFF804020 (by decide) (by decide) (by decide)⟩

/-! ## Transparent pixels and the accuracy of the reciprocal -/

theorem channel_zero (s : Nat) : channel s 0 = 0 := by
  simp [channel]

theorem R_zero : R 0 = 0 := rfl

theorem unpremultiply_pixel_transparent (A p : Nat) (hA : A = 0 ∨ A = 8 ∨ A = 16 ∨ A = 24)
    (ha : channel A p = 0) : unpremultiply_pixel A p = 0 := by
  obtain ⟨hr, hg, hb, haa, hlt⟩ := channel_unpremultiply_pixel A p hA
  rw [ha, R_zero] at hr hg hb
  refine eq_of_channels A _ 0 hA hlt (by norm_num) ?_ ?_ ?_ ?_
  · rw [hr, channel_zero, Nat.mul_zero]
  · rw [hg, channel_zero, Nat.mul_zero]
  · rw [hb, channel_zero, Nat.mul_zero]
  · rw [haa, ha, channel_zero]

/-- For `1 ≤ a ≤ 255` the reciprocal multiplication computes the exact integer
quotient: `(c * R a) >> 16 = 255 * c / a`. -/
theorem unpremultiply_quotient (a c : Nat) (ha : 1 ≤ a) (ha' : a < 256) (hc : c < 256) :
    c * R a / 65536 = 255 * c / a := by
  have hge := R_mul_ge a ha
  have hle := R_mul_le a ha
  have hq1 := Nat.div_mul_le_self (255 * c) a
  have hq2 := Nat.lt_mul_div_succ (255 * c) (show 0 < a by omega)
  generalize 255 * c / a = q at hq1 hq2
  have hXa : c * R a * a = c * (R a * a) := Nat.mul_assoc _ _ _
  have h1 : c * 16711680 ≤ c * (R a * a) := Nat.mul_le_mul_left _ hge
  have h2 : c * (R a * a) ≤ c * (16711680 + a - 1) := Nat.mul_le_mul_left _ hle
  have h3 : c * (16711680 + a - 1) = c * 16711680 + c * (a - 1) := by
    rw [← Nat.mul_add]; congr 1; omega
  have h4 : c * (a - 1) ≤ 255 * 254 := Nat.mul_le_mul (by omega) (by omega)
  rw [Nat.mul_add, Nat.mul_one] at hq2
  apply Nat.div_eq_of_lt_le
  · -- q * 65536 ≤ c * R a
    by_contra hlt
    have h5 : (c * R a + 1) * a ≤ q * 65536 * a := Nat.mul_le_mul_right _ (by omega)
    have h6 : q * 65536 * a = q * a * 65536 := by ring
    rw [Nat.add_mul, Nat.one_mul, h6] at h5
    omega
  · -- c * R a < (q + 1) * 65536
    by_contra hge'
    have h5 : (q + 1) * 65536 * a ≤ c * R a * a := Nat.mul_le_mul_right _ (by omega)
    have h6 : (q + 1) * 65536 * a = a * q * 65536 + a * 65536 := by ring
    rw [h6] at h5
    omega

/-! ## The probe flags -/

theorem probe_accu_eq (A p q : Nat) :
    probe_accu A p q
      = if channel A p + channel A q = 510 then 0
        else 2 ^ 32 - 510 + channel A p + channel A q := by
  have hp := channel_lt A p
  have hq := channel_lt A q
  unfold probe_accu
  change ((2 ^ 32 - 2 * 255 + channel A p) % 2 ^ 32 + channel A q) % 2 ^ 32 = _
  split <;> omega

theorem probe_accu_high_bits (A p q i : Nat) (h : probe_accu A p q ≠ 0) (h9 : 9 ≤ i)
    (h32 : i < 32) : (probe_accu A p q).testBit i = true := by
  have hp := channel_lt A p
  have hq := channel_lt A q
  rw [probe_accu_eq] at h ⊢
  split at h
  · exact absurd rfl h
  · rename_i hne
    rw [if_neg hne]
    have hx : 509 - (channel A p + channel A q) < 2 ^ 32 := by omega
    have e : 2 ^ 32 - 510 + channel A p + channel A q
        = 2 ^ 32 - (509 - (channel A p + channel A q) + 1) := by omega
    rw [e, Nat.testBit_two_pow_sub_succ hx]
    have hsmall : (509 - (channel A p + channel A q)).testBit i = false := by
      apply Nat.testBit_lt_two_pow
      have : 2 ^ 9 ≤ 2 ^ i := Nat.pow_le_pow_right (by norm_num) h9
      omega
    simp [h32, hsmall]

/-- One iteration of the outer loop of the row functions that probes the
pair `rgba0, rgba1` branches on `probe_accu` and `probe_diff`. -/
theorem row_loop_probe (px : Nat → Nat) (A dst src n fuel i : Nat) (m : Mem)
    (rgba0 rgba1 : Nat) (hi : i < n) (h0 : m[src + i]? = some rgba0)
    (hd0 : dst + i < m.length) (hn : i + 1 ≠ n)
    (h1 : (m.set (dst + i) (px rgba0))[src + (i + 1)]? = some rgba1)
    (hd1 : dst + (i + 1) < m.length) :
    row_loop px A dst src n (fuel + 1) .probe i m
      = if 0 ≠ (probe_accu A rgba0 rgba1 &&& probe_diff rgba0 rgba1) then
          row_loop px A dst src n fuel .probe (i + 2)
            ((m.set (dst + i) (px rgba0)).set (dst + (i + 1)) (px rgba1))
        else if 0 = probe_accu A rgba0 rgba1 then
          row_loop px A dst src n fuel .solid (i + 2)
            ((m.set (dst + i) (px rgba0)).set (dst + (i + 1)) (px rgba1))
        else if 0 = probe_diff rgba0 rgba1 then
          row_loop px A dst src n fuel (.const rgba0 (px rgba0)) (i + 2)
            ((m.set (dst + i) (px rgba0)).set (dst + (i + 1)) (px rgba1))
        else
          row_loop px A dst src n fuel .probe (i + 2)
            ((m.set (dst + i) (px rgba0)).set (dst + (i + 1)) (px rgba1)) := by
  rw [row_loop]
  simp only [if_pos hi, h0, if_pos hd0, if_neg hn, h1, List.length_set, if_pos hd1]
  rfl

/-! ## The claims, continued -/

/-- C11: a 32 bit pixel whose alpha byte is 0 is unpremultiplied to the
all-zero pixel, whatever its colour channels: alpha and the three colour
channels of the result are 0. -/
theorem unpremultiply_transparent_zero (A s p : Nat)
    (hA : A = 0 ∨ A = 8 ∨ A = 16 ∨ A = 24) (ha : channel A p = 0) :
    unpremultiply_pixel A p = 0 ∧ channel s (unpremultiply_pixel A p) = 0 := by
  rw [unpremultiply_pixel_transparent A p hA ha]
  exact ⟨rfl, channel_zero s⟩

/-- C11 at the pixel `0x00FFFFFF` (alpha 0, all colours 255, alpha at bit 24). -/
theorem unpremultiply_transparent_zero_witness :
    (24 = 0 ∨ 24 = 8 ∨ 24 = 16 ∨ 24 = 24) ∧ channel 24 0x00FFFFFF = 0
      ∧ unpremultiply_pixel 24 0x00FFFFFF = 0
      ∧ channel 16 (unpremultiply_pixel 24 0x00FFFFFF) = 0 :=
  ⟨by decide, by decide,
    unpremultiply_transparent_zero 24 16 0x00FFFFFF (by decide) (by decide)⟩

/-- C12: for alpha `a` in `[1,255]` and a premultiplied colour channel
`c ≤ a`, the channel `v` written by unpremultiply satisfies
`255*c/a ≤ v ≤ 255*c/a + 1` (integer division), the product
`(c * reciprocal_table[a]) >> 16` is at most 255, so the mask discards
nothing and `v` is that product; `v` is in fact equal to `255*c/a`. -/
theorem unpremultiply_accuracy (A s p : Nat) (hA : A = 0 ∨ A = 8 ∨ A = 16 ∨ A = 24)
    (hs : s = RSHIFT A ∨ s = GSHIFT A ∨ s = BSHIFT A)
    (ha : 1 ≤ channel A p) (hc : channel s p ≤ channel A p) :
    255 * channel s p / channel A p ≤ channel s (unpremultiply_pixel A p)
      ∧ channel s (unpremultiply_pixel A p) ≤ 255 * channel s p / channel A p + 1
      ∧ (channel s p * reciprocal_table.getD (channel A p) 0) >>> 16 ≤ 255
      ∧ channel s (unpremultiply_pixel A p)
          = (channel s p * reciprocal_table.getD (channel A p) 0) >>> 16
      ∧ channel s (unpremultiply_pixel A p) = 255 * channel s p / channel A p := by
  obtain ⟨hr, hg, hb, -, -⟩ := channel_unpremultiply_pixel A p hA
  have key : channel s (unpremultiply_pixel A p)
      = channel s p * R (channel A p) / 65536 % 256 := by
    rcases hs with rfl | rfl | rfl <;> assumption
  have hal := channel_lt A p
  have hcl := channel_lt s p
  have hq := unpremultiply_quotient (channel A p) (channel s p) ha hal hcl
  have hdiv : 255 * channel s p / channel A p ≤ 255 := by
    apply Nat.div_le_of_le_mul
    have : 255 * channel s p ≤ 255 * channel A p := Nat.mul_le_mul_left _ hc
    rw [Nat.mul_comm (channel A p) 255]
    exact this
  rw [reciprocal_table_getD _ hal, Nat.shiftRight_eq_div_pow, key, hq,
    Nat.mod_eq_of_lt (by omega)]
  norm_num
  exact hdiv

/-- C12 at the pixel `0x80402010` (alpha 128, red 64): `255 * 64 / 128 = 127`. -/
theorem unpremultiply_accuracy_witness :
    (24 = 0 ∨ 24 = 8 ∨ 24 = 16 ∨ 24 = 24)
      ∧ (16 = RSHIFT 24 ∨ 16 = GSHIFT 24 ∨ 16 = BSHIFT 24)
      ∧ 1 ≤ channel 24 0x80402010 ∧ channel 16 0x80402010 ≤ channel 24 0x80402010
      ∧ 255 * channel 16 0x80402010 / channel 24 0x80402010
          ≤ channel 16 (unpremultiply_pixel 24 0x80402010)
      ∧ channel 16 (unpremultiply_pixel 24 0x80402010)
          ≤ 255 * channel 16 0x80402010 / channel 24 0x80402010 + 1
      ∧ (channel 16 0x80402010 * reciprocal_table.getD (channel 24 0x80402010) 0) >>> 16
          ≤ 255
      ∧ channel 16 (unpremultiply_pixel 24 0x80402010)
          = (channel 16 0x80402010 * reciprocal_table.getD (channel 24 0x80402010) 0) >>> 16
      ∧ channel 16 (unpremultiply_pixel 24 0x80402010)
          = 255 * channel 16 0x80402010 / channel 24 0x80402010 :=
  ⟨by decide, by decide, by decide, by decide,
    unpremultiply_accuracy 24 16 0x80402010 (by decide) (by decide) (by decide) (by decide)⟩

/-- C13 as stated fails: the pixels `0xFE000000` and `0xFE000001` (alpha 254,
alpha at bit 24) differ and are not opaque, so `accu = 0xFFFFFFFE` and
`diff = 1` are both non-zero, yet `accu & diff` is 0. -/
theorem probe_filter_not_exact :
    probe_accu 24 0xFE000000 0xFE000001 = 0xFFFFFFFE
      ∧ probe_diff 0xFE000000 0xFE000001 = 1
      ∧ probe_accu 24 0xFE000000 0xFE000001 &&& probe_diff 0xFE000000 0xFE000001 = 0 := by
  decide

/-- C13, amended: for 32 bit pixels `p, q` probed together, `accu == 0` exactly
when both alphas are 255 and `diff == 0` exactly when `p` and `q` are
identical; `(accu & diff) != 0` holds only when neither special condition
holds, and it does hold whenever `accu != 0` and the pixels differ in one of
the bits 9..31 (`diff ≥ 512`). -/
theorem probe_flags (A p q : Nat) (hp : p < 2 ^ 32) (hq : q < 2 ^ 32) :
    (probe_accu A p q = 0 ↔ channel A p = 255 ∧ channel A q = 255)
      ∧ (probe_diff p q = 0 ↔ p = q)
      ∧ (probe_accu A p q &&& probe_diff p q ≠ 0 →
          probe_accu A p q ≠ 0 ∧ probe_diff p q ≠ 0)
      ∧ (probe_accu A p q ≠ 0 → 512 ≤ probe_diff p q →
          probe_accu A p q &&& probe_diff p q ≠ 0) := by
  have hpl := channel_lt A p
  have hql := channel_lt A q
  refine ⟨?_, ?_, ?_, ?_⟩
  · rw [probe_accu_eq]
    split <;> omega
  · unfold probe_diff
    rw [Nat.xor_eq_zero]
    exact eq_comm
  · intro h
    constructor
    · intro h0; rw [h0, Nat.zero_and] at h; exact h rfl
    · intro h0; rw [h0, Nat.and_zero] at h; exact h rfl
  · intro hacc hdiff
    have hdlt : probe_diff p q < 2 ^ 32 := Nat.xor_lt_two_pow hq hp
    obtain ⟨i, hi9, hbit⟩ := Nat.ge_two_pow_implies_high_bit_true (n := 9) hdiff
    have hi32 : i < 32 := by
      by_contra hge
      have hpow : 2 ^ 32 ≤ 2 ^ i := Nat.pow_le_pow_right (by norm_num) (by omega)
      have := Nat.testBit_lt_two_pow (Nat.lt_of_lt_of_le hdlt hpow)
      rw [this] at hbit
      exact Bool.noConfusion hbit
    intro hzero
    have hand : (probe_accu A p q &&& probe_diff p q).testBit i = true := by
      rw [Nat.testBit_and, probe_accu_high_bits A p q i hacc hi9 hi32, hbit]
      rfl
    rw [hzero, Nat.zero_testBit] at hand
    exact Bool.noConfusion hand

/-- C13, amended, at the pixels `0xFE000000` and `0xFE000001`. -/
theorem probe_flags_witness :
    0xFE000000 < 2 ^ 32 ∧ 0xFE000001 < 2 ^ 32
      ∧ (probe_accu 24 0xFE000000 0xFE000001 = 0
          ↔ channel 24 0xFE000000 = 255 ∧ channel 24 0xFE000001 = 255)
      ∧ (probe_diff 0xFE000000 0xFE000001 = 0 ↔ 0xFE000000 = 0xFE000001)
      ∧ (probe_accu 24 0xFE000000 0xFE000001 &&& probe_diff 0xFE000000 0xFE000001 ≠ 0 →
          probe_accu 24 0xFE000000 0xFE000001 ≠ 0 ∧ probe_diff 0xFE000000 0xFE000001 ≠ 0)
      ∧ (probe_accu 24 0xFE000000 0xFE000001 ≠ 0 → 512 ≤ probe_diff 0xFE000000 0xFE000001 →
          probe_accu 24 0xFE000000 0xFE000001 &&& probe_diff 0xFE000000 0xFE000001 ≠ 0) :=
  ⟨by decide, by decide, probe_flags 24 0xFE000000 0xFE000001 (by decide) (by decide)⟩

/-! ## Rectangles -/

/-- One axis of `make_rect`: the clamped origin and extent that are stored in
the rectangle, for an extent `w > 0` that reaches the non-negative
coordinates. -/
theorem make_rect_axis (x w : Int) (hx1 : -2 ^ 31 ≤ x) (hx2 : x ≤ 32767)
    (hw2 : w < 2 ^ 31) (hwp : 0 < w) (hxw : 0 ≤ x + w) :
    to_sint16 (if x < 0 then 0 else x) = max x 0
      ∧ to_uint16 (if to_unsigned (if x < 0 then to_int (w + x) else w) > 32767 then 32767
          else if x < 0 then to_int (w + x) else w) = min (x + w - max x 0) 32767 := by
  norm_num at hx1 hw2
  simp only [to_sint16, to_uint16, to_int, to_unsigned, max_def, min_def]
  norm_num
  by_cases hneg : x < 0
  · simp only [if_pos hneg]
    have e1 : (w + x + 2147483648) % 4294967296 - 2147483648 = w + x := by omega
    rw [e1]
    split_ifs <;> omega
  · simp only [if_neg hneg]
    split_ifs <;> omega

/-- C14 as stated fails.  A rectangle wholly to the left of column 0
(`x = -10, w = 5`) comes back 32767 pixels wide, so `x' + w' = 32767` exceeds
`x + w = -5`; a rectangle ending at column 0 (`x = -5, w = 5`) comes back with
width 0, not at least 1. -/
theorem make_rect_off_surface :
    make_rect (-10) 0 5 5 = { x := 0, y := 0, w := 32767, h := 5 }
      ∧ ¬ ((make_rect (-10) 0 5 5).x + (make_rect (-10) 0 5 5).w ≤ -10 + 5)
      ∧ make_rect (-5) 0 5 5 = { x := 0, y := 0, w := 0, h := 5 }
      ∧ ¬ (1 ≤ (make_rect (-5) 0 5 5).w) := by
  decide

/-- C14, amended: for 32 bit signed `x, y, w, h` with `x, y ≤ 32767`,
`make_rect` returns the empty rectangle `{0,0,0,0}` when `w ≤ 0` or `h ≤ 0`.
Otherwise, when the requested rectangle reaches the non-negative coordinates
(`x + w ≥ 0` and `y + h ≥ 0`), it returns `x' = max x 0`, `y' = max y 0`,
`w' = min (x + w - x') 32767` and `h' = min (y + h - y') 32767`; so
`x', y' ≥ 0`, `0 ≤ w', h' ≤ 32767`, `x' + w' ≤ x + w`, `y' + h' ≤ y + h`, and
`w' ≥ 1` when `x + w ≥ 1`, `h' ≥ 1` when `y + h ≥ 1`. -/
theorem make_rect_spec (x y w h : Int)
    (hx : -2 ^ 31 ≤ x ∧ x ≤ 32767) (hy : -2 ^ 31 ≤ y ∧ y ≤ 32767)
    (hw : -2 ^ 31 ≤ w ∧ w < 2 ^ 31) (hh : -2 ^ 31 ≤ h ∧ h < 2 ^ 31) :
    ((w ≤ 0 ∨ h ≤ 0) → make_rect x y w h = empty_rect)
      ∧ (0 < w → 0 < h → 0 ≤ x + w → 0 ≤ y + h →
          (make_rect x y w h).x = max x 0 ∧ (make_rect x y w h).y = max y 0
            ∧ (make_rect x y w h).w = min (x + w - max x 0) 32767
            ∧ (make_rect x y w h).h = min (y + h - max y 0) 32767
            ∧ 0 ≤ (make_rect x y w h).x ∧ 0 ≤ (make_rect x y w h).y
            ∧ 0 ≤ (make_rect x y w h).w ∧ (make_rect x y w h).w ≤ 32767
            ∧ 0 ≤ (make_rect x y w h).h ∧ (make_rect x y w h).h ≤ 32767
            ∧ (make_rect x y w h).x + (make_rect x y w h).w ≤ x + w
            ∧ (make_rect x y w h).y + (make_rect x y w h).h ≤ y + h
            ∧ (1 ≤ x + w → 1 ≤ (make_rect x y w h).w)
            ∧ (1 ≤ y + h → 1 ≤ (make_rect x y w h).h)) := by
  constructor
  · intro h0
    simp only [make_rect, if_pos h0]
  · intro hwp hhp hxw hyh
    have hn : ¬ (w ≤ 0 ∨ h ≤ 0) := by omega
    obtain ⟨ex, ew⟩ := make_rect_axis x w hx.1 hx.2 hw.2 hwp hxw
    obtain ⟨ey, eh⟩ := make_rect_axis y h hy.1 hy.2 hh.2 hhp hyh
    have hrx : (make_rect x y w h).x = max x 0 := by
      simp only [make_rect, if_neg hn]; exact ex
    have hry : (make_rect x y w h).y = max y 0 := by
      simp only [make_rect, if_neg hn]; exact ey
    have hrw : (make_rect x y w h).w = min (x + w - max x 0) 32767 := by
      simp only [make_rect, if_neg hn]; exact ew
    have hrh : (make_rect x y w h).h = min (y + h - max y 0) 32767 := by
      simp only [make_rect, if_neg hn]; exact eh
    rw [hrx, hry, hrw, hrh]
    refine ⟨rfl, rfl, rfl, rfl, ?_⟩
    simp only [max_def, min_def]
    split_ifs <;> omega

/-- C14, amended, at the request `x = -5, y = 3, w = 10, h = 40000`, which
comes back as `{0, 3, 5, 32767}`. -/
theorem make_rect_spec_witness :
    (-2 ^ 31 ≤ (-5 : Int) ∧ (-5 : Int) ≤ 32767) ∧ (-2 ^ 31 ≤ (3 : Int) ∧ (3 : Int) ≤ 32767)
      ∧ (-2 ^ 31 ≤ (10 : Int) ∧ (10 : Int) < 2 ^ 31)
      ∧ (-2 ^ 31 ≤ (40000 : Int) ∧ (40000 : Int) < 2 ^ 31)
      ∧ make_rect (-5) 3 10 40000 = { x := 0, y := 3, w := 5, h := 32767 }
      ∧ ((10 ≤ (0 : Int) ∨ 40000 ≤ (0 : Int)) → make_rect (-5) 3 10 40000 = empty_rect)
      ∧ ((0 : Int) < 10 → (0 : Int) < 40000 → (0 : Int) ≤ -5 + 10 → (0 : Int) ≤ 3 + 40000 →
          (make_rect (-5) 3 10 40000).x = max (-5) 0
            ∧ (make_rect (-5) 3 10 40000).y = max 3 0
            ∧ (make_rect (-5) 3 10 40000).w = min (-5 + 10 - max (-5) 0) 32767
            ∧ (make_rect (-5) 3 10 40000).h = min (3 + 40000 - max 3 0) 32767
            ∧ 0 ≤ (make_rect (-5) 3 10 40000).x ∧ 0 ≤ (make_rect (-5) 3 10 40000).y
            ∧ 0 ≤ (make_rect (-5) 3 10 40000).w ∧ (make_rect (-5) 3 10 40000).w ≤ 32767
            ∧ 0 ≤ (make_rect (-5) 3 10 40000).h ∧ (make_rect (-5) 3 10 40000).h ≤ 32767
            ∧ (make_rect (-5) 3 10 40000).x + (make_rect (-5) 3 10 40000).w ≤ -5 + 10
            ∧ (make_rect (-5) 3 10 40000).y + (make_rect (-5) 3 10 40000).h ≤ 3 + 40000
            ∧ (1 ≤ (-5 : Int) + 10 → 1 ≤ (make_rect (-5) 3 10 40000).w)
            ∧ (1 ≤ (3 : Int) + 40000 → 1 ≤ (make_rect (-5) 3 10 40000).h)) :=
  ⟨by decide, by decide, by decide, by decide, by decide,
    make_rect_spec (-5) 3 10 40000 (by decide) (by decide) (by decide) (by decide)⟩

/-- C15 fails on the code.  A surface 6 pixels wide and 1 row high (stride 24
bytes) has its shadow buffer at byte 0 and its SDL buffer at byte 24, and the
rectangle is `{x = 4, y = 0, w = 1, h = 1}`.  Flushing converts the pixel of
column 1 (`0x80200000` to `0x803F0000`, word 7) and leaves column 4 (word 10)
alone, where the claim wants `0x809F0000`; marking dirty likewise converts
column 1 (`0x80200000` to `0x80100000`, word 1) instead of column 4.  With
`x = 1` the blit starts on a byte address that is not a pixel at all. -/
theorem rect_blit_starts_at_byte_x :
    cairosdl_surface_flush_rects 24
        [0x80100000, 0x80200000, 0x80300000, 0x80400000, 0x80500000, 0x80600000,
         0, 0, 0, 0, 0, 0]
        24 24 6 1 0 24 6 1 1 [{ x := 4, y := 0, w := 1, h := 1 }]
      = .done [0x80100000, 0x80200000, 0x80300000, 0x80400000, 0x80500000, 0x80600000,
         0, 0x803F0000, 0, 0, 0, 0]
    ∧ unpremultiply_pixel 24 0x80500000 = 0x809F0000
    ∧ cairosdl_surface_mark_dirty_rects 24
        [0, 0, 0, 0, 0, 0,
         0x80100000, 0x80200000, 0x80300000, 0x80400000, 0x80500000, 0x80600000]
        24 24 6 1 0 24 6 1 1 [{ x := 4, y := 0, w := 1, h := 1 }]
      = .done [0, 0x80100000, 0, 0, 0, 0,
         0x80100000, 0x80200000, 0x80300000, 0x80400000, 0x80500000, 0x80600000]
    ∧ premultiply_pixel 24 0x80500000 = 0x80280000
    ∧ cairosdl_surface_flush_rects 24
        [0x80100000, 0x80200000, 0x80300000, 0x80400000, 0x80500000, 0x80600000,
         0, 0, 0, 0, 0, 0]
        24 24 6 1 0 24 6 1 1 [{ x := 1, y := 0, w := 1, h := 1 }]
      = .fault [0x80100000, 0x80200000, 0x80300000, 0x80400000, 0x80500000, 0x80600000,
         0, 0, 0, 0, 0, 0] := by
  decide

end CairoSDL
